import Mathlib

/-!
# Verification of the mcp-server-test filesystem capability server

A shallow embedding of the Go sources of `Loag/mcp-server-test`:

* `mcp/filesystem.go` — the `FilesystemProvider` (path sandboxing via
  `resolvePath`, and the list/read/write/delete tool handlers and
  file/directory resource handlers);
* `mcp/types.go` — request/response envelope types, `ParseID`, and the
  envelope constructors;
* `server/server.go` — identifier parsing (`parseToolID`,
  `parseResourceID`) and the dispatch logic of `handleCallTool` /
  `handleLoadResource` (the HTTP binding itself is out of scope).

Go strings are byte sequences, so they are modelled as `List Nat`
(each element intended `< 256`); the Go conversions `[]byte(s)` and
`string(b)` are then literally the identity, exactly as in Go.
ASCII string literals are written with the helper `gs`.

The relevant `path/filepath` routines (`Clean`, `Join`, `Abs`, `IsAbs`)
are modelled for Unix separators by the standard segment-rewriting
semantics of `Clean`; `filepath.Abs` takes the working directory
(`os.Getwd`, always an absolute path) as an explicit argument and
cannot fail in the model.

The filesystem touched by `os.Stat` / `os.ReadDir` / `os.ReadFile` /
`os.WriteFile` / `os.MkdirAll` / `os.Remove` / `os.RemoveAll` is
modelled as an association list from canonical absolute paths
(slash-split, lexically cleaned segment lists) to nodes. File modes,
modification-time clocks and platform-specific stat failures are not
modelled; `time.Time` is a `Nat` timestamp supplied as `now`.
-/

deriving instance DecidableEq for Except

namespace MCP

/-- A Go string: a sequence of bytes. -/
abbrev GoStr := List Nat

/-- ASCII string literal embedding: each character's code point is its
byte. Used only to write down the literals that occur in the Go source
and in concrete test inputs (all ASCII). -/
def gs (s : String) : GoStr := s.toList.map Char.toNat

/-- The byte of the path separator character. -/
def slash : Nat := 47

/-- The byte of the dot character. -/
def dot : Nat := 46

/-! ## strings / path/filepath models -/

/-- Model of `strings.Split(s, sep)` for a single-byte separator.
`splitOnByte b []` is `[[]]`, matching `strings.Split("", sep) = [""]`. -/
def splitOnByte (b : Nat) : GoStr → List GoStr
  | [] => [[]]
  | c :: rest =>
    if c = b then [] :: splitOnByte b rest
    else
      match splitOnByte b rest with
      | s :: ss => (c :: s) :: ss
      | [] => [[c]]

/-- Model of `strings.Join` / `filepath` joining with a single-byte
separator (`String.intercalate` over byte lists). -/
def joinSegs (b : Nat) : List GoStr → GoStr
  | [] => []
  | [s] => s
  | s :: rest => s ++ b :: joinSegs b rest

/-- Model of `strings.HasPrefix`. -/
def hasPrefixB (s pre : GoStr) : Bool := pre.isPrefixOf s

/-- Model of `strings.Contains`. -/
def containsB (s sub : GoStr) : Bool := decide (sub <:+: s)

/-- Model of `filepath.IsAbs` on Unix: the path starts with `/`. -/
def isAbsB : GoStr → Bool
  | c :: _ => c = slash
  | [] => false

/-- One step of `filepath.Clean`'s segment processing: the accumulator
is the output stack with its head the most recently emitted segment.
Empty and `.` segments are dropped; `..` pops a preceding segment, and
at the bottom of the stack is dropped when the path is rooted and kept
when it is relative. -/
def cleanStep (rooted : Bool) (stack : List GoStr) (seg : GoStr) : List GoStr :=
  if seg = [] ∨ seg = [dot] then stack
  else if seg = [dot, dot] then
    match stack with
    | [] => if rooted then [] else [[dot, dot]]
    | t :: rest => if t = [dot, dot] then seg :: stack else rest
  else seg :: stack

/-- The cleaned segment list of a path, in order. -/
def cleanSegsOf (rooted : Bool) (segs : List GoStr) : List GoStr :=
  (segs.foldl (cleanStep rooted) []).reverse

/-- Model of `filepath.Clean` (Unix): lexically collapse `.` and `..`
segments and repeated separators; `Clean "" = "."`. -/
def cleanB (s : GoStr) : GoStr :=
  if s = [] then [dot]
  else
    let rooted := isAbsB s
    let segs := cleanSegsOf rooted (splitOnByte slash s)
    let joined := joinSegs slash segs
    if rooted then slash :: joined
    else if joined = [] then [dot] else joined

/-- Model of `filepath.Join(a, b)` (Unix): empty elements are skipped,
the rest are joined with `/` and the result cleaned; all-empty input
gives the empty string. -/
def joinPathB (a b : GoStr) : GoStr :=
  if a = [] ∧ b = [] then []
  else if a = [] then cleanB b
  else if b = [] then cleanB a
  else cleanB (a ++ slash :: b)

/-- Model of `filepath.Abs(path)` with the working directory `cwd`
(the result of `os.Getwd`, an absolute path) passed explicitly:
an absolute path is cleaned, a relative one joined onto `cwd`.
`os.Getwd` failure is not modelled, so this cannot fail. -/
def absPathB (cwd path : GoStr) : GoStr :=
  if isAbsB path then cleanB path else joinPathB cwd path

/-! ## FilesystemProvider and resolvePath (mcp/filesystem.go) -/

/-- `FilesystemProvider` from `mcp/filesystem.go`: the sandbox root
directory fixed at construction. -/
structure FilesystemProvider where
  rootDir : GoStr

/-- `NewFilesystemProvider`: the root defaults to the current directory
`"."`. -/
def NewFilesystemProvider : FilesystemProvider := ⟨gs "."⟩

/-- The error message of `resolvePath`'s lexical traversal check. -/
def pathEscapeMsg : GoStr := gs "path attempts to access parent directory outside of root"

/-- The error message of `resolvePath`'s root-prefix containment check. -/
def outsideRootMsg : GoStr := gs "path is outside of root directory"

/-- `(p *FilesystemProvider) resolvePath(path)` from `mcp/filesystem.go`:
an absolute candidate is returned unchanged; a relative candidate is
cleaned, rejected if the cleaned form starts with `..` or contains
`/../`, joined onto the root and made absolute; when the root is itself
absolute, the absolute result must have the root's absolute form as a
string prefix. `cwd` is the working directory used by `filepath.Abs`. -/
def resolvePath (p : FilesystemProvider) (cwd : GoStr) (path : GoStr) :
    Except GoStr GoStr :=
  if isAbsB path then .ok path
  else
    let cleanPath := cleanB path
    if hasPrefixB cleanPath (gs "..") || containsB cleanPath (gs "/../") then
      .error pathEscapeMsg
    else
      let fullPath := joinPathB p.rootDir cleanPath
      let absPath := absPathB cwd fullPath
      if isAbsB p.rootDir then
        let rootAbs := absPathB cwd p.rootDir
        if !hasPrefixB absPath rootAbs then .error outsideRootMsg
        else .ok absPath
      else .ok absPath

/-! ## encoding/base64 (StdEncoding) model -/

/-- The standard base64 alphabet: the character of a 6-bit value. -/
def b64Char (n : Nat) : Nat :=
  if n < 26 then 65 + n
  else if n < 52 then 97 + (n - 26)
  else if n < 62 then 48 + (n - 52)
  else if n = 62 then 43
  else 47

/-- Model of `base64.StdEncoding.EncodeToString`: 3-byte groups become
4 alphabet characters, with `=` padding for a 1- or 2-byte tail. -/
def base64Encode : GoStr → GoStr
  | [] => []
  | [a] => [b64Char (a / 4), b64Char (a % 4 * 16), 61, 61]
  | [a, b] => [b64Char (a / 4), b64Char (a % 4 * 16 + b / 16), b64Char (b % 16 * 4), 61]
  | a :: b :: c :: rest =>
    b64Char (a / 4) :: b64Char (a % 4 * 16 + b / 16) ::
      b64Char (b % 16 * 4 + c / 64) :: b64Char (c % 64) :: base64Encode rest

/-- The 6-bit value of a standard base64 alphabet character. -/
def b64Val (c : Nat) : Option Nat :=
  if 65 ≤ c ∧ c ≤ 90 then some (c - 65)
  else if 97 ≤ c ∧ c ≤ 122 then some (c - 97 + 26)
  else if 48 ≤ c ∧ c ≤ 57 then some (c - 48 + 52)
  else if c = 43 then some 62
  else if c = 47 then some 63
  else none

/-- Model of `base64.StdEncoding.DecodeString`: 4-character groups,
`=` padding only in the final group; `none` on any malformed input
(Go returns a `CorruptInputError`). Like Go's decoder it does not
insist that unused trailing bits are zero; unlike Go it does not skip
embedded newline characters, which no claim exercises. -/
def base64Decode : GoStr → Option GoStr
  | [] => some []
  | c1 :: c2 :: c3 :: c4 :: rest =>
    match b64Val c1, b64Val c2 with
    | some v1, some v2 =>
      if c3 = 61 then
        if c4 = 61 ∧ rest = [] then some [v1 * 4 + v2 / 16] else none
      else
        match b64Val c3 with
        | some v3 =>
          if c4 = 61 then
            if rest = [] then some [v1 * 4 + v2 / 16, v2 % 16 * 16 + v3 / 4] else none
          else
            match b64Val c4 with
            | some v4 =>
              (base64Decode rest).map
                (fun tail => (v1 * 4 + v2 / 16) :: (v2 % 16 * 16 + v3 / 4) ::
                  (v3 % 4 * 64 + v4) :: tail)
            | none => none
        | none => none
    | _, _ => none
  | _ => none

/-! ## Filesystem state model (the `os` package operations used) -/

/-- A canonical absolute path: its non-empty segments in order. -/
abbrev FSKey := List GoStr

/-- A filesystem node: a regular file with its bytes, or a directory.
`modTime` models `FileInfo.ModTime` as a timestamp; a directory's
reported `Size` is platform-defined, so it is stored. -/
inductive FSNode where
  | file (data : GoStr) (modTime : Nat)
  | dir (size : Nat) (modTime : Nat)
deriving DecidableEq

/-- Filesystem state: an association list from canonical paths to
nodes (first binding wins; operations keep keys unique). -/
abbrev FS := List (FSKey × FSNode)

/-- The canonical key of a path string: lexically clean it and take the
non-empty slash-separated segments. Lexical `..` resolution stands in
for the kernel's path walk (symbolic links are out of scope). -/
def pathKey (s : GoStr) : FSKey :=
  (splitOnByte slash (cleanB s)).filter (fun seg => seg ≠ [])

/-- Look a key up in the filesystem. -/
def fsLookup (fs : FS) (k : FSKey) : Option FSNode :=
  (fs.find? (fun e => e.1 = k)).map (fun e => e.2)

/-- Insert or overwrite a binding. -/
def fsInsert (fs : FS) (k : FSKey) (n : FSNode) : FS :=
  match fs with
  | [] => [(k, n)]
  | (k', n') :: rest =>
    if k' = k then (k, n) :: rest else (k', n') :: fsInsert rest k n

/-- Remove a binding. -/
def fsErase (fs : FS) (k : FSKey) : FS :=
  fs.filter (fun e => e.1 ≠ k)

/-- The immediate children of a directory key: entry name and node.
Go's `os.ReadDir` sorts entries by name; the spec leaves the order
unspecified-but-consistent, and no claim depends on it, so the state's
own order is used. -/
def childEntries (fs : FS) (k : FSKey) : List (GoStr × FSNode) :=
  (fs.filter (fun e => e.1.length = k.length + 1 && k.isPrefixOf e.1)).map
    (fun e => (e.1.getLastD [], e.2))

/-- Model of `os.Stat`: `none` models the `os.IsNotExist` error; other
stat failures (permissions and the like) are not modelled. -/
def osStat (fs : FS) (path : GoStr) : Option FSNode :=
  fsLookup fs (pathKey path)

/-- Model of `os.ReadDir` on an existing directory. -/
def osReadDir (fs : FS) (path : GoStr) : List (GoStr × FSNode) :=
  childEntries fs (pathKey path)

/-- Model of `os.ReadFile`. -/
def osReadFile (fs : FS) (path : GoStr) : Except GoStr GoStr :=
  match fsLookup fs (pathKey path) with
  | some (.file data _) => .ok data
  | some (.dir _ _) => .error (gs "is a directory")
  | none => .error (gs "no such file or directory")

/-- Model of `filepath.Dir`: everything up to the final separator,
cleaned; `"."` when the path has no separator. -/
def dirB (s : GoStr) : GoStr :=
  let segs := splitOnByte slash s
  if segs.length ≤ 1 then gs "."
  else cleanB (joinSegs slash segs.dropLast ++ [slash])

/-- Helper for `os.MkdirAll`: walk the key segments from an existing
ancestor `pre`, creating missing directories (with `modTime` `now`),
failing where a regular file is in the way (`ENOTDIR`). -/
def mkdirAllFrom (fs : FS) (pre : FSKey) (rest : List GoStr) (now : Nat) :
    Except GoStr FS :=
  match rest with
  | [] => .ok fs
  | seg :: rest' =>
    let k := pre ++ [seg]
    match fsLookup fs k with
    | some (.dir _ _) => mkdirAllFrom fs k rest' now
    | some (.file _ _) => .error (gs "not a directory")
    | none => mkdirAllFrom (fsInsert fs k (.dir 0 now)) k rest' now

/-- Model of `os.MkdirAll(path, 0755)`: create every missing ancestor
directory of `path` and `path` itself (permission bits are not
modelled). -/
def osMkdirAll (fs : FS) (path : GoStr) (now : Nat) : Except GoStr FS :=
  mkdirAllFrom fs [] (pathKey path) now

/-- Model of `os.WriteFile(path, data, 0644)`: create or truncate the
file; fails if the path is an existing directory or its parent
directory is missing. -/
def osWriteFile (fs : FS) (path : GoStr) (data : GoStr) (now : Nat) :
    Except GoStr FS :=
  let k := pathKey path
  if k = [] then .error (gs "is a directory")
  else
    match fsLookup fs k with
    | some (.dir _ _) => .error (gs "is a directory")
    | _ =>
      if k.dropLast = [] then .ok (fsInsert fs k (.file data now))
      else
        match fsLookup fs k.dropLast with
        | some (.dir _ _) => .ok (fsInsert fs k (.file data now))
        | some (.file _ _) => .error (gs "not a directory")
        | none => .error (gs "no such file or directory")

/-- Model of `os.Remove`: remove a file or an empty directory. -/
def osRemove (fs : FS) (path : GoStr) : Except GoStr FS :=
  let k := pathKey path
  match fsLookup fs k with
  | none => .error (gs "no such file or directory")
  | some (.file _ _) => .ok (fsErase fs k)
  | some (.dir _ _) =>
    if childEntries fs k = [] then .ok (fsErase fs k)
    else .error (gs "directory not empty")

/-- Model of `os.RemoveAll`: remove the path and everything below it;
succeeds even when nothing is there. -/
def osRemoveAll (fs : FS) (path : GoStr) : Except GoStr FS :=
  let k := pathKey path
  .ok (fs.filter (fun e => ¬ k.isPrefixOf e.1))

/-! ## Envelope and payload types (mcp/types.go) -/

/-- A loosely typed argument value (`interface{}` after JSON binding):
a string, a boolean, or anything else (number, null, array, object).
The Go type assertions `.(string)` and `.(bool)` succeed exactly on
the first two. -/
inductive GoValue where
  | str (s : GoStr)
  | bool (b : Bool)
  | other
deriving DecidableEq

/-- An arguments map `map[string]interface{}`, as an association list
(Go map keys are unique; lookup takes the first binding). -/
abbrev Args := List (GoStr × GoValue)

/-- Map lookup. -/
def argLookup (args : Args) (k : GoStr) : Option GoValue :=
  (args.find? (fun e => e.1 = k)).map (fun e => e.2)

/-- `CallToolParams` from mcp/types.go. -/
structure CallToolParams where
  arguments : Args
deriving DecidableEq

/-- `CallToolRequest` from mcp/types.go. -/
structure CallToolRequest where
  toolID : GoStr
  requestID : GoStr
  params : CallToolParams
deriving DecidableEq

/-- `ErrorInfo` from mcp/types.go. -/
structure ErrorInfo where
  code : GoStr
  message : GoStr
deriving DecidableEq

/-- `FileContent` from mcp/types.go. -/
structure FileContent where
  path : GoStr
  content : GoStr
  isText : Bool
deriving DecidableEq

/-- `FileInfo` from mcp/types.go (`ModTime` as a timestamp). -/
structure FileInfo where
  name : GoStr
  path : GoStr
  size : Nat
  isDir : Bool
  modTime : Nat
deriving DecidableEq

/-- `DirectoryContent` from mcp/types.go. -/
structure DirectoryContent where
  path : GoStr
  files : List FileInfo
deriving DecidableEq

/-- The structured values this provider ever wraps as `"json"`. -/
inductive JsonPayload where
  | fileContent (fc : FileContent)
  | dirContent (dc : DirectoryContent)
deriving DecidableEq

/-- A success payload: the `{"type":"text","text":…}` or
`{"type":"json","json":…}` map built by the result constructors. -/
inductive ResultPayload where
  | text (t : GoStr)
  | json (j : JsonPayload)
deriving DecidableEq

/-- `CallToolResult` from mcp/types.go. -/
structure CallToolResult where
  requestID : GoStr
  status : GoStr
  result : Option ResultPayload
  error : Option ErrorInfo
deriving DecidableEq

/-- `LoadResourceRequest` from mcp/types.go: its `Params` is the
arguments map itself. -/
structure LoadResourceRequest where
  resourceID : GoStr
  requestID : GoStr
  params : Args
deriving DecidableEq

/-- `LoadResourceResult` from mcp/types.go. -/
structure LoadResourceResult where
  requestID : GoStr
  status : GoStr
  content : Option ResultPayload
  error : Option ErrorInfo
deriving DecidableEq

/-- `NewToolResultText` from mcp/types.go. -/
def NewToolResultText (text : GoStr) : CallToolResult :=
  ⟨[], gs "success", some (.text text), none⟩

/-- `NewToolResultJSON` from mcp/types.go. -/
def NewToolResultJSON (data : JsonPayload) : CallToolResult :=
  ⟨[], gs "success", some (.json data), none⟩

/-- `NewToolResultError` from mcp/types.go: code `execution_error`. -/
def NewToolResultError (message : GoStr) : CallToolResult :=
  ⟨[], gs "error", none, some ⟨gs "execution_error", message⟩⟩

/-- `NewResourceResultText` from mcp/types.go. -/
def NewResourceResultText (text : GoStr) : LoadResourceResult :=
  ⟨[], gs "success", some (.text text), none⟩

/-- `NewResourceResultJSON` from mcp/types.go. -/
def NewResourceResultJSON (data : JsonPayload) : LoadResourceResult :=
  ⟨[], gs "success", some (.json data), none⟩

/-- `NewResourceResultError` from mcp/types.go: code `resource_error`. -/
def NewResourceResultError (message : GoStr) : LoadResourceResult :=
  ⟨[], gs "error", none, some ⟨gs "resource_error", message⟩⟩

/-- `ParseID` from mcp/types.go: split on `"."`. -/
def ParseID (id : GoStr) : List GoStr := splitOnByte dot id

/-! ## Tool and resource handlers (mcp/filesystem.go) -/

/-- `entry.IsDir()` / `info.IsDir()`. -/
def FSNode.isDirNode : FSNode → Bool
  | .dir _ _ => true
  | .file _ _ => false

/-- `entryInfo.Size()`: a file's byte length; a directory's stored
platform-defined size. -/
def FSNode.sizeOf : FSNode → Nat
  | .file data _ => data.length
  | .dir size _ => size

/-- `entryInfo.ModTime()`. -/
def FSNode.mtime : FSNode → Nat
  | .file _ m => m
  | .dir _ m => m

/-- `(p *FilesystemProvider) listDirectory(request)`: list the
immediate children of a sandbox-resolved directory. Entries whose
metadata read fails are skipped in Go; the model's metadata reads
always succeed, so every entry is converted. -/
def listDirectory (p : FilesystemProvider) (cwd : GoStr) (fs : FS)
    (request : CallToolRequest) : CallToolResult :=
  match argLookup request.params.arguments (gs "path") with
  | some (.str pathParam) =>
    match resolvePath p cwd pathParam with
    | .error e =>
      { NewToolResultError (gs "Invalid path: " ++ e) with requestID := request.requestID }
    | .ok fullPath =>
      match osStat fs fullPath with
      | none =>
        { NewToolResultError (gs "Directory not found: " ++ pathParam) with
            requestID := request.requestID }
      | some info =>
        if !info.isDirNode then
          { NewToolResultError (gs "Path is not a directory: " ++ pathParam) with
              requestID := request.requestID }
        else
          let files := (osReadDir fs fullPath).map (fun e =>
            FileInfo.mk e.1 (joinPathB pathParam e.1) e.2.sizeOf e.2.isDirNode e.2.mtime)
          { NewToolResultJSON (.dirContent ⟨pathParam, files⟩) with
              requestID := request.requestID }
  | _ =>
    { NewToolResultError (gs "Path parameter is required and must be a string") with
        requestID := request.requestID }

/-- `(p *FilesystemProvider) readFile(request)`: read a
sandbox-resolved file, as raw text or base64 per the `encoding`
argument (any value other than the string `"base64"` behaves as
`"text"`). -/
def readFile (p : FilesystemProvider) (cwd : GoStr) (fs : FS)
    (request : CallToolRequest) : CallToolResult :=
  match argLookup request.params.arguments (gs "path") with
  | some (.str pathParam) =>
    let encoding := match argLookup request.params.arguments (gs "encoding") with
      | some (.str e) => e
      | _ => gs "text"
    match resolvePath p cwd pathParam with
    | .error e =>
      { NewToolResultError (gs "Invalid path: " ++ e) with requestID := request.requestID }
    | .ok fullPath =>
      match osStat fs fullPath with
      | none =>
        { NewToolResultError (gs "File not found: " ++ pathParam) with
            requestID := request.requestID }
      | some info =>
        if info.isDirNode then
          { NewToolResultError (gs "Path is a directory, not a file: " ++ pathParam) with
              requestID := request.requestID }
        else
          match osReadFile fs fullPath with
          | .error e =>
            { NewToolResultError (gs "Error reading file: " ++ e) with
                requestID := request.requestID }
          | .ok data =>
            let fc : FileContent :=
              if encoding = gs "base64" then ⟨pathParam, base64Encode data, false⟩
              else ⟨pathParam, data, true⟩
            { NewToolResultJSON (.fileContent fc) with requestID := request.requestID }
  | _ =>
    { NewToolResultError (gs "Path parameter is required and must be a string") with
        requestID := request.requestID }

/-- Stand-in for the text of the `base64.CorruptInputError` returned
by `DecodeString` (in Go it names the offending byte position; no
claim depends on this text). -/
def base64DecodeErrMsg : GoStr := gs "illegal base64 data"

/-- `(p *FilesystemProvider) writeFile(request)`: resolve the path,
create missing parent directories, decode the content per `encoding`,
and write the file. Returns the result envelope together with the
filesystem state after the call — note that `os.MkdirAll` runs before
the base64 decode, so a decode failure still leaves any directories it
created. -/
def writeFile (p : FilesystemProvider) (cwd : GoStr) (now : Nat) (fs : FS)
    (request : CallToolRequest) : CallToolResult × FS :=
  match argLookup request.params.arguments (gs "path") with
  | some (.str pathParam) =>
    match argLookup request.params.arguments (gs "content") with
    | some (.str contentParam) =>
      let encoding := match argLookup request.params.arguments (gs "encoding") with
        | some (.str e) => e
        | _ => gs "text"
      match resolvePath p cwd pathParam with
      | .error e =>
        ({ NewToolResultError (gs "Invalid path: " ++ e) with
            requestID := request.requestID }, fs)
      | .ok fullPath =>
        match osMkdirAll fs (dirB fullPath) now with
        | .error e =>
          ({ NewToolResultError (gs "Error creating directory: " ++ e) with
              requestID := request.requestID }, fs)
        | .ok fs1 =>
          let decoded : Option GoStr :=
            if encoding = gs "base64" then base64Decode contentParam
            else some contentParam
          match decoded with
          | none =>
            ({ NewToolResultError
                (gs "Error decoding base64 content: " ++ base64DecodeErrMsg) with
                requestID := request.requestID }, fs1)
          | some data =>
            match osWriteFile fs1 fullPath data now with
            | .error e =>
              ({ NewToolResultError (gs "Error writing file: " ++ e) with
                  requestID := request.requestID }, fs1)
            | .ok fs2 =>
              ({ NewToolResultText (gs "File written successfully: " ++ pathParam) with
                  requestID := request.requestID }, fs2)
    | _ =>
      ({ NewToolResultError (gs "Content parameter is required and must be a string") with
          requestID := request.requestID }, fs)
  | _ =>
    ({ NewToolResultError (gs "Path parameter is required and must be a string") with
        requestID := request.requestID }, fs)

/-- `(p *FilesystemProvider) deleteFile(request)`: delete a
sandbox-resolved file, or a directory (only when empty unless
`recursive` is true). -/
def deleteFile (p : FilesystemProvider) (cwd : GoStr) (fs : FS)
    (request : CallToolRequest) : CallToolResult × FS :=
  match argLookup request.params.arguments (gs "path") with
  | some (.str pathParam) =>
    let recursive := match argLookup request.params.arguments (gs "recursive") with
      | some (.bool b) => b
      | _ => false
    match resolvePath p cwd pathParam with
    | .error e =>
      ({ NewToolResultError (gs "Invalid path: " ++ e) with
          requestID := request.requestID }, fs)
    | .ok fullPath =>
      match osStat fs fullPath with
      | none =>
        ({ NewToolResultError (gs "File or directory not found: " ++ pathParam) with
            requestID := request.requestID }, fs)
      | some info =>
        if info.isDirNode then
          if recursive then
            match osRemoveAll fs fullPath with
            | .error e =>
              ({ NewToolResultError (gs "Error deleting directory: " ++ e) with
                  requestID := request.requestID }, fs)
            | .ok fs1 =>
              ({ NewToolResultText (gs "Successfully deleted: " ++ pathParam) with
                  requestID := request.requestID }, fs1)
          else
            if (osReadDir fs fullPath).length > 0 then
              ({ NewToolResultError
                  (gs "Directory is not empty: " ++ pathParam ++
                    gs ". Use recursive=true to delete non-empty directories") with
                  requestID := request.requestID }, fs)
            else
              match osRemove fs fullPath with
              | .error e =>
                ({ NewToolResultError (gs "Error deleting directory: " ++ e) with
                    requestID := request.requestID }, fs)
              | .ok fs1 =>
                ({ NewToolResultText (gs "Successfully deleted: " ++ pathParam) with
                    requestID := request.requestID }, fs1)
        else
          match osRemove fs fullPath with
          | .error e =>
            ({ NewToolResultError (gs "Error deleting file: " ++ e) with
                requestID := request.requestID }, fs)
          | .ok fs1 =>
            ({ NewToolResultText (gs "Successfully deleted: " ++ pathParam) with
                requestID := request.requestID }, fs1)
  | _ =>
    ({ NewToolResultError (gs "Path parameter is required and must be a string") with
        requestID := request.requestID }, fs)

/-- `(p *FilesystemProvider) loadFile(request)`: the resource variant
of `readFile`, over `LoadResourceRequest.Params` and the resource
envelope. -/
def loadFile (p : FilesystemProvider) (cwd : GoStr) (fs : FS)
    (request : LoadResourceRequest) : LoadResourceResult :=
  match argLookup request.params (gs "path") with
  | some (.str pathParam) =>
    let encoding := match argLookup request.params (gs "encoding") with
      | some (.str e) => e
      | _ => gs "text"
    match resolvePath p cwd pathParam with
    | .error e =>
      { NewResourceResultError (gs "Invalid path: " ++ e) with
          requestID := request.requestID }
    | .ok fullPath =>
      match osStat fs fullPath with
      | none =>
        { NewResourceResultError (gs "File not found: " ++ pathParam) with
            requestID := request.requestID }
      | some info =>
        if info.isDirNode then
          { NewResourceResultError (gs "Path is a directory, not a file: " ++ pathParam) with
              requestID := request.requestID }
        else
          match osReadFile fs fullPath with
          | .error e =>
            { NewResourceResultError (gs "Error reading file: " ++ e) with
                requestID := request.requestID }
          | .ok data =>
            let fc : FileContent :=
              if encoding = gs "base64" then ⟨pathParam, base64Encode data, false⟩
              else ⟨pathParam, data, true⟩
            { NewResourceResultJSON (.fileContent fc) with requestID := request.requestID }
  | _ =>
    { NewResourceResultError (gs "Path parameter is required and must be a string") with
        requestID := request.requestID }

/-- `(p *FilesystemProvider) loadDirectory(request)`: the resource
variant of `listDirectory`. -/
def loadDirectory (p : FilesystemProvider) (cwd : GoStr) (fs : FS)
    (request : LoadResourceRequest) : LoadResourceResult :=
  match argLookup request.params (gs "path") with
  | some (.str pathParam) =>
    match resolvePath p cwd pathParam with
    | .error e =>
      { NewResourceResultError (gs "Invalid path: " ++ e) with
          requestID := request.requestID }
    | .ok fullPath =>
      match osStat fs fullPath with
      | none =>
        { NewResourceResultError (gs "Directory not found: " ++ pathParam) with
            requestID := request.requestID }
      | some info =>
        if !info.isDirNode then
          { NewResourceResultError (gs "Path is not a directory: " ++ pathParam) with
              requestID := request.requestID }
        else
          let files := (osReadDir fs fullPath).map (fun e =>
            FileInfo.mk e.1 (joinPathB pathParam e.1) e.2.sizeOf e.2.isDirNode e.2.mtime)
          { NewResourceResultJSON (.dirContent ⟨pathParam, files⟩) with
              requestID := request.requestID }
  | _ =>
    { NewResourceResultError (gs "Path parameter is required and must be a string") with
        requestID := request.requestID }

/-- `(p *FilesystemProvider) CallTool(toolName, request)`: dispatch on
the tool name; an unknown name yields an `unknown_tool` error
envelope. The Go method returns `(*CallToolResult, error)`; every path
returns a nil Go error, modelled by `Except.ok`. The filesystem state
after the call is returned alongside. -/
def CallTool (p : FilesystemProvider) (cwd : GoStr) (now : Nat) (fs : FS)
    (toolName : GoStr) (request : CallToolRequest) :
    Except GoStr CallToolResult × FS :=
  if toolName = gs "list" then (.ok (listDirectory p cwd fs request), fs)
  else if toolName = gs "read" then (.ok (readFile p cwd fs request), fs)
  else if toolName = gs "write" then
    let r := writeFile p cwd now fs request
    (.ok r.1, r.2)
  else if toolName = gs "delete" then
    let r := deleteFile p cwd fs request
    (.ok r.1, r.2)
  else
    (.ok ⟨request.requestID, gs "error", none,
      some ⟨gs "unknown_tool", gs "Unknown tool: " ++ toolName⟩⟩, fs)

/-- `(p *FilesystemProvider) LoadResource(resourceName, request)`:
dispatch on the resource name; an unknown name yields an
`unknown_resource` error envelope; the Go error is always nil
(`Except.ok`). Resource loads never change the filesystem. -/
def LoadResource (p : FilesystemProvider) (cwd : GoStr) (fs : FS)
    (resourceName : GoStr) (request : LoadResourceRequest) :
    Except GoStr LoadResourceResult :=
  if resourceName = gs "file" then .ok (loadFile p cwd fs request)
  else if resourceName = gs "directory" then .ok (loadDirectory p cwd fs request)
  else
    .ok ⟨request.requestID, gs "error", none,
      some ⟨gs "unknown_resource", gs "Unknown resource: " ++ resourceName⟩⟩

/-! ## Dispatcher (server/server.go) -/

/-- `parseToolID` from server/server.go: `ParseID` must yield exactly
two components (emptiness is not checked). -/
def parseToolID (toolID : GoStr) : Except GoStr (GoStr × GoStr) :=
  match ParseID toolID with
  | [a, b] => .ok (a, b)
  | _ => .error (gs "Invalid tool ID format. Expected: provider.tool")

/-- `parseResourceID` from server/server.go. -/
def parseResourceID (resourceID : GoStr) : Except GoStr (GoStr × GoStr) :=
  match ParseID resourceID with
  | [a, b] => .ok (a, b)
  | _ => .error (gs "Invalid resource ID format. Expected: provider.resource")

/-- The observable outcome of a dispatch handler: an HTTP error
response `(status, ErrorResponse{Error, Message})`, or the 200
envelope. -/
inductive DispatchResult (ρ : Type) where
  | httpError (status : Nat) (errCode : GoStr) (message : GoStr)
  | ok (result : ρ)
deriving DecidableEq

/-- The provider registry `Providers map[string]mcp.Provider`: the one
provider implementation is `FilesystemProvider`, so the registry maps
names to it. -/
abbrev Registry := List (GoStr × FilesystemProvider)

/-- `handleCallTool` from server/server.go, after request binding:
parse the tool identifier, look up the provider, call the tool,
backfill the request identifier. -/
def handleCallTool (providers : Registry) (cwd : GoStr) (now : Nat) (fs : FS)
    (request : CallToolRequest) : DispatchResult CallToolResult × FS :=
  match parseToolID request.toolID with
  | .error e => (.httpError 400 (gs "invalid_tool_id") e, fs)
  | .ok (providerName, toolName) =>
    match (providers.find? (fun e => e.1 = providerName)).map (fun e => e.2) with
    | none =>
      (.httpError 404 (gs "provider_not_found")
        (gs "Provider not found: " ++ providerName), fs)
    | some p =>
      match CallTool p cwd now fs toolName request with
      | (.error e, fs1) => (.httpError 500 (gs "tool_execution_error") e, fs1)
      | (.ok result, fs1) =>
        let result := if result.requestID = [] then
            { result with requestID := request.requestID }
          else result
        (.ok result, fs1)

/-- `handleLoadResource` from server/server.go, after request
binding. -/
def handleLoadResource (providers : Registry) (cwd : GoStr) (fs : FS)
    (request : LoadResourceRequest) : DispatchResult LoadResourceResult :=
  match parseResourceID request.resourceID with
  | .error e => .httpError 400 (gs "invalid_resource_id") e
  | .ok (providerName, resourceName) =>
    match (providers.find? (fun e => e.1 = providerName)).map (fun e => e.2) with
    | none =>
      .httpError 404 (gs "provider_not_found")
        (gs "Provider not found: " ++ providerName)
    | some p =>
      match LoadResource p cwd fs resourceName request with
      | .error e => .httpError 500 (gs "resource_load_error") e
      | .ok result =>
        if result.requestID = [] then { result with requestID := request.requestID }
          |> DispatchResult.ok
        else .ok result

/-! ## Proof-side definitions -/

/-- The envelope-independent outcome of a tool call or resource load:
correlation identifier, status, success payload, and error message.
The error `code` is fixed by the envelope kind (`execution_error` in
every tool error, `resource_error` in every resource error), so it is
part of the wrapper, not of the outcome. -/
structure Outcome where
  requestID : GoStr
  status : GoStr
  payload : Option ResultPayload
  errorMessage : Option GoStr
deriving DecidableEq

/-- Project a tool envelope onto its outcome. -/
def toolOutcome (r : CallToolResult) : Outcome :=
  ⟨r.requestID, r.status, r.result, r.error.map (fun e => e.message)⟩

/-- Project a resource envelope onto its outcome. -/
def resourceOutcome (r : LoadResourceResult) : Outcome :=
  ⟨r.requestID, r.status, r.content, r.error.map (fun e => e.message)⟩

/-- A sample sandboxed filesystem used by concrete witnesses: the root
directory `/sandbox` containing the non-empty directory `d`. -/
def witnessFS : FS :=
  [([gs "sandbox"], .dir 0 5), ([gs "sandbox", gs "d"], .dir 0 3),
   ([gs "sandbox", gs "d", gs "x.txt"], .file (gs "hello") 4)]

/-- `..` repeated: the leading `..` segments a relative clean can keep. -/
def dotsRep (k : Nat) : List GoStr := List.replicate k [dot, dot]

/-- The action of one path segment on a (pop-count, pushed-segments)
pair: the abstract effect of `cleanStep` on any deeper stack. -/
def actStep (a : Nat × List GoStr) (seg : GoStr) : Nat × List GoStr :=
  if seg = [] ∨ seg = [dot] then a
  else if seg = [dot, dot] then
    match a.2 with
    | [] => (a.1 + 1, [])
    | _ :: t => (a.1, t)
  else (a.1, seg :: a.2)

/-- A plain name segment: not empty, not `.`, not `..`. -/
def isNameSeg (seg : GoStr) : Prop := seg ≠ [] ∧ seg ≠ [dot] ∧ seg ≠ [dot, dot]

/-- A well-formed output segment: a plain name free of separators. -/
def goodSeg (seg : GoStr) : Prop := isNameSeg seg ∧ slash ∉ seg

/-! ## Theorems -/

/-- C2: an absolute candidate path is returned unchanged by
`resolvePath`, with no sandbox containment check, whatever the root
and working directory are. -/
theorem resolvePath_absolute_bypass (p : FilesystemProvider) (cwd path : GoStr)
    (habs : isAbsB path = true) : resolvePath p cwd path = .ok path := by
  unfold resolvePath
  simp [habs]

/-- C2 witness: the absolute candidate `/etc/passwd`, outside the
absolute root `/sandbox`, is returned unchanged. -/
theorem resolvePath_absolute_bypass_witness :
    isAbsB (gs "/etc/passwd") = true ∧
      resolvePath ⟨gs "/sandbox"⟩ (gs "/") (gs "/etc/passwd") = .ok (gs "/etc/passwd") :=
  ⟨by decide, resolvePath_absolute_bypass ⟨gs "/sandbox"⟩ (gs "/") (gs "/etc/passwd") (by decide)⟩

/-- C1 counterexample: the relative candidate `a/../b` contains a `../`
segment and the root `/sandbox` is absolute, yet `resolvePath`
succeeds (with `/sandbox/b`), because `filepath.Clean` cancels the
`..` before the escape check runs. -/
theorem resolvePath_dotdot_escape_counterexample :
    isAbsB (gs "/sandbox") = true ∧ containsB (gs "a/../b") (gs "../") = true ∧
      resolvePath ⟨gs "/sandbox"⟩ (gs "/") (gs "a/../b") = .ok (gs "/sandbox/b") := by
  decide

/-- C1 amended: for a relative candidate, `resolvePath` fails with the
`PathEscape` error exactly when the lexically cleaned candidate still
starts with `..` or contains a `../` segment; `../` segments that
normalization cancels (and absolute candidates) are not rejected. -/
theorem resolvePath_pathEscape_iff_cleaned (p : FilesystemProvider) (cwd path : GoStr)
    (hrel : isAbsB path = false) :
    resolvePath p cwd path = .error pathEscapeMsg ↔
      (hasPrefixB (cleanB path) (gs "..") || containsB (cleanB path) (gs "/../")) = true := by
  unfold resolvePath
  simp only [hrel, Bool.false_eq_true, if_false]
  cases h : hasPrefixB (cleanB path) (gs "..") || containsB (cleanB path) (gs "/../") with
  | true => simp
  | false =>
    simp only [Bool.false_eq_true, if_false, iff_false]
    split
    · split
      · intro hc
        exact absurd (Except.error.inj hc) (by decide)
      · simp
    · simp

/-- C1 amended witness: `../x` cleans to `../x`, which starts with
`..`, so it is rejected with `PathEscape`. -/
theorem resolvePath_pathEscape_iff_cleaned_witness :
    isAbsB (gs "../x") = false ∧
      (hasPrefixB (cleanB (gs "../x")) (gs "..") ||
        containsB (cleanB (gs "../x")) (gs "/../")) = true ∧
      resolvePath ⟨gs "/sandbox"⟩ (gs "/") (gs "../x") = .error pathEscapeMsg :=
  ⟨by decide, by decide,
    (resolvePath_pathEscape_iff_cleaned ⟨gs "/sandbox"⟩ (gs "/") (gs "../x") (by decide)).mpr
      (by decide)⟩

/-- C8: an unrecognized tool or resource capability name yields a
status-`error` envelope with code `unknown_tool` (resp.
`unknown_resource`) and a nil Go error (`Except.ok`), with the
filesystem untouched. -/
theorem unknown_capability_error_envelope (p : FilesystemProvider) (cwd : GoStr)
    (now : Nat) (fs : FS) (toolName resourceName : GoStr)
    (request : CallToolRequest) (lrequest : LoadResourceRequest)
    (h1 : toolName ≠ gs "list") (h2 : toolName ≠ gs "read")
    (h3 : toolName ≠ gs "write") (h4 : toolName ≠ gs "delete")
    (g1 : resourceName ≠ gs "file") (g2 : resourceName ≠ gs "directory") :
    CallTool p cwd now fs toolName request =
      (.ok ⟨request.requestID, gs "error", none,
        some ⟨gs "unknown_tool", gs "Unknown tool: " ++ toolName⟩⟩, fs) ∧
    LoadResource p cwd fs resourceName lrequest =
      .ok ⟨lrequest.requestID, gs "error", none,
        some ⟨gs "unknown_resource", gs "Unknown resource: " ++ resourceName⟩⟩ := by
  unfold CallTool LoadResource
  simp [h1, h2, h3, h4, g1, g2]

/-- C8 witness: the unknown tool `frobnicate` and unknown resource
`blob`. -/
theorem unknown_capability_error_envelope_witness :
    (gs "frobnicate" ≠ gs "list" ∧ gs "blob" ≠ gs "file") ∧
      CallTool ⟨gs "/sandbox"⟩ (gs "/") 0 [] (gs "frobnicate") ⟨gs "t", gs "r1", ⟨[]⟩⟩ =
        (.ok ⟨gs "r1", gs "error", none,
          some ⟨gs "unknown_tool", gs "Unknown tool: " ++ gs "frobnicate"⟩⟩, []) ∧
      LoadResource ⟨gs "/sandbox"⟩ (gs "/") [] (gs "blob") ⟨gs "s", gs "r2", []⟩ =
        .ok ⟨gs "r2", gs "error", none,
          some ⟨gs "unknown_resource", gs "Unknown resource: " ++ gs "blob"⟩⟩ :=
  ⟨⟨by decide, by decide⟩,
    unknown_capability_error_envelope ⟨gs "/sandbox"⟩ (gs "/") 0 [] (gs "frobnicate")
      (gs "blob") ⟨gs "t", gs "r1", ⟨[]⟩⟩ ⟨gs "s", gs "r2", []⟩
      (by decide) (by decide) (by decide) (by decide) (by decide) (by decide)⟩

/-- C10: in `readFile`, `loadFile` and `writeFile`, any `encoding`
argument other than the exact string `"base64"` — another string such
as `"BASE64"` or `"utf-8"`, a boolean, or any other non-string value —
behaves exactly like `"text"`: the invocation is identical to one with
`encoding` set to `"text"`, so no encoding-validation error ever
arises for an out-of-enum value. -/
theorem encoding_fallback_to_text (p : FilesystemProvider) (cwd : GoStr) (now : Nat)
    (fs : FS) (ps cs : GoStr) (v : GoValue) (rest : Args) (tid rid : GoStr)
    (hv : v ≠ GoValue.str (gs "base64")) :
    readFile p cwd fs
        ⟨tid, rid, ⟨(gs "path", .str ps) :: (gs "content", .str cs) ::
          (gs "encoding", v) :: rest⟩⟩ =
      readFile p cwd fs
        ⟨tid, rid, ⟨(gs "path", .str ps) :: (gs "content", .str cs) ::
          (gs "encoding", .str (gs "text")) :: rest⟩⟩ ∧
    loadFile p cwd fs
        ⟨tid, rid, (gs "path", .str ps) :: (gs "content", .str cs) ::
          (gs "encoding", v) :: rest⟩ =
      loadFile p cwd fs
        ⟨tid, rid, (gs "path", .str ps) :: (gs "content", .str cs) ::
          (gs "encoding", .str (gs "text")) :: rest⟩ ∧
    writeFile p cwd now fs
        ⟨tid, rid, ⟨(gs "path", .str ps) :: (gs "content", .str cs) ::
          (gs "encoding", v) :: rest⟩⟩ =
      writeFile p cwd now fs
        ⟨tid, rid, ⟨(gs "path", .str ps) :: (gs "content", .str cs) ::
          (gs "encoding", .str (gs "text")) :: rest⟩⟩ := by
  rcases v with s | b | _
  · have hs : s ≠ gs "base64" := fun h => hv (by rw [h])
    have hneq : ¬ (gs "text" = gs "base64") := by decide
    refine ⟨?_, ?_, ?_⟩ <;>
      simp only [readFile, loadFile, writeFile,
        show argLookup ((gs "path", GoValue.str ps) :: (gs "content", GoValue.str cs) ::
          (gs "encoding", GoValue.str s) :: rest) (gs "path") = some (GoValue.str ps) from rfl,
        show argLookup ((gs "path", GoValue.str ps) :: (gs "content", GoValue.str cs) ::
          (gs "encoding", GoValue.str (gs "text")) :: rest) (gs "path")
          = some (GoValue.str ps) from rfl,
        show argLookup ((gs "path", GoValue.str ps) :: (gs "content", GoValue.str cs) ::
          (gs "encoding", GoValue.str s) :: rest) (gs "content")
          = some (GoValue.str cs) from rfl,
        show argLookup ((gs "path", GoValue.str ps) :: (gs "content", GoValue.str cs) ::
          (gs "encoding", GoValue.str (gs "text")) :: rest) (gs "content")
          = some (GoValue.str cs) from rfl,
        show argLookup ((gs "path", GoValue.str ps) :: (gs "content", GoValue.str cs) ::
          (gs "encoding", GoValue.str s) :: rest) (gs "encoding")
          = some (GoValue.str s) from rfl,
        show argLookup ((gs "path", GoValue.str ps) :: (gs "content", GoValue.str cs) ::
          (gs "encoding", GoValue.str (gs "text")) :: rest) (gs "encoding")
          = some (GoValue.str (gs "text")) from rfl,
        if_neg hs, if_neg hneq]
  · exact ⟨rfl, rfl, rfl⟩
  · exact ⟨rfl, rfl, rfl⟩

/-- C10 witness: the out-of-enum encoding `"BASE64"` behaves as
`"text"` on a read. -/
theorem encoding_fallback_to_text_witness :
    GoValue.str (gs "BASE64") ≠ GoValue.str (gs "base64") ∧
      readFile ⟨gs "/sandbox"⟩ (gs "/") []
          ⟨gs "t", gs "r", ⟨[(gs "path", .str (gs "a")), (gs "content", .str (gs "c")),
            (gs "encoding", .str (gs "BASE64"))]⟩⟩ =
        readFile ⟨gs "/sandbox"⟩ (gs "/") []
          ⟨gs "t", gs "r", ⟨[(gs "path", .str (gs "a")), (gs "content", .str (gs "c")),
            (gs "encoding", .str (gs "text"))]⟩⟩ :=
  ⟨by decide,
    (encoding_fallback_to_text ⟨gs "/sandbox"⟩ (gs "/") 0 [] (gs "a") (gs "c")
      (.str (gs "BASE64")) [] (gs "t") (gs "r") (by decide)).1⟩

/-- C3 counterexample: the tool identifier `"filesystem."` has an
empty capability component, yet dispatch does not fail with the
invalid-identifier error: the `filesystem` provider is invoked (its
`CallTool` runs and reports `unknown_tool` for the empty name). -/
theorem dispatch_empty_capability_counterexample :
    (handleCallTool [(gs "filesystem", ⟨gs "/sandbox"⟩)] (gs "/") 0 []
        ⟨gs "filesystem.", gs "r", ⟨[]⟩⟩).1 =
      .ok ⟨gs "r", gs "error", none, some ⟨gs "unknown_tool", gs "Unknown tool: "⟩⟩ := by
  decide

/-- C3 amended: dispatch fails with the invalid-identifier format
error exactly when the identifier does not split into exactly two
components on `.` — component emptiness is not checked, so `".list"`
proceeds to a (failing) provider lookup and `"filesystem."` reaches
the provider, which reports `unknown_tool`/`unknown_resource`. -/
theorem dispatch_invalid_id_iff (providers : Registry) (cwd : GoStr) (now : Nat)
    (fs : FS) (request : CallToolRequest) (lrequest : LoadResourceRequest) :
    ((handleCallTool providers cwd now fs request).1 =
        .httpError 400 (gs "invalid_tool_id")
          (gs "Invalid tool ID format. Expected: provider.tool") ↔
      (ParseID request.toolID).length ≠ 2) ∧
    (handleLoadResource providers cwd fs lrequest =
        .httpError 400 (gs "invalid_resource_id")
          (gs "Invalid resource ID format. Expected: provider.resource") ↔
      (ParseID lrequest.resourceID).length ≠ 2) := by
  constructor
  · unfold handleCallTool parseToolID
    rcases h : ParseID request.toolID with _ | ⟨a, _ | ⟨b, _ | ⟨c, l⟩⟩⟩ <;>
        simp only [h, List.length_nil, List.length_cons] <;>
      try simp
    rcases hf : (providers.find? (fun e => e.1 = a)).map (fun e => e.2) with _ | q <;>
      simp only [hf]
    · simp [DispatchResult.httpError.injEq]
    · rcases hct : CallTool q cwd now fs b request with ⟨er | res, fs1⟩ <;>
        simp only [hct]
      · simp [DispatchResult.httpError.injEq,
          show gs "tool_execution_error" ≠ gs "invalid_tool_id" from by decide]
      · simp
  · unfold handleLoadResource parseResourceID
    rcases h : ParseID lrequest.resourceID with _ | ⟨a, _ | ⟨b, _ | ⟨c, l⟩⟩⟩ <;>
        simp only [h, List.length_nil, List.length_cons] <;>
      try simp
    rcases hf : (providers.find? (fun e => e.1 = a)).map (fun e => e.2) with _ | q <;>
      simp only [hf]
    · simp [DispatchResult.httpError.injEq]
    · rcases hlr : LoadResource q cwd fs b lrequest with er | res <;>
        simp only [hlr]
      · simp [DispatchResult.httpError.injEq,
          show gs "resource_load_error" ≠ gs "invalid_resource_id" from by decide]
      · split <;> simp

/-- C5: deleting an existing non-empty directory with the `recursive`
argument anything but the boolean `true` reports the
directory-not-empty error (with the retry guidance) and leaves the
filesystem exactly as it was. -/
theorem delete_nonrecursive_nonempty_dir (p : FilesystemProvider) (cwd : GoStr)
    (fs : FS) (args : Args) (tid rid ps full : GoStr) (sz mt : Nat)
    (hpath : argLookup args (gs "path") = some (.str ps))
    (hrec : argLookup args (gs "recursive") ≠ some (.bool true))
    (hres : resolvePath p cwd ps = .ok full)
    (hdir : osStat fs full = some (.dir sz mt))
    (hne : osReadDir fs full ≠ []) :
    deleteFile p cwd fs ⟨tid, rid, ⟨args⟩⟩ =
      ({ NewToolResultError (gs "Directory is not empty: " ++ ps ++
          gs ". Use recursive=true to delete non-empty directories") with
          requestID := rid }, fs) := by
  have hrec' : (match argLookup args (gs "recursive") with
      | some (.bool b) => b
      | _ => false) = false := by
    rcases h : argLookup args (gs "recursive") with _ | v
    · rfl
    · rcases v with s | b | _
      · rfl
      · cases b
        · rfl
        · exact absurd h hrec
      · rfl
  have hlen : 0 < (osReadDir fs full).length := List.length_pos.mpr hne
  unfold deleteFile
  simp only [hpath, hrec', hres, hdir, FSNode.isDirNode, Bool.false_eq_true, if_false,
    gt_iff_lt, hlen, if_true, if_pos hlen]

/-- C5 witness: deleting the non-empty `/sandbox/d` without
`recursive` fails and changes nothing. -/
theorem delete_nonrecursive_nonempty_dir_witness :
    (argLookup [(gs "path", GoValue.str (gs "d"))] (gs "path") = some (.str (gs "d")) ∧
      resolvePath ⟨gs "/sandbox"⟩ (gs "/") (gs "d") = .ok (gs "/sandbox/d") ∧
      osStat witnessFS (gs "/sandbox/d") = some (.dir 0 3) ∧
      osReadDir witnessFS (gs "/sandbox/d") ≠ []) ∧
    deleteFile ⟨gs "/sandbox"⟩ (gs "/") witnessFS
        ⟨gs "t", gs "r", ⟨[(gs "path", GoValue.str (gs "d"))]⟩⟩ =
      ({ NewToolResultError (gs "Directory is not empty: " ++ gs "d" ++
          gs ". Use recursive=true to delete non-empty directories") with
          requestID := gs "r" }, witnessFS) :=
  ⟨⟨by decide, by decide, by decide, by decide⟩,
    delete_nonrecursive_nonempty_dir ⟨gs "/sandbox"⟩ (gs "/") witnessFS
      [(gs "path", GoValue.str (gs "d"))] (gs "t") (gs "r") (gs "d") (gs "/sandbox/d")
      0 3 (by decide) (by decide) (by decide) (by decide) (by decide)⟩

/-- C6 counterexample: a write with base64 encoding and undecodable
content (`%%%`) to `d/f` under root `/sandbox` reports the decode
failure, yet the filesystem has changed: `os.MkdirAll` already created
the directory `/sandbox/d` before the decode ran. -/
theorem write_base64_partial_effect_counterexample :
    (writeFile ⟨gs "/sandbox"⟩ (gs "/") 7 [([gs "sandbox"], .dir 0 5)]
        ⟨gs "filesystem.write", gs "r6",
          ⟨[(gs "path", .str (gs "d/f")), (gs "content", .str (gs "%%%")),
            (gs "encoding", .str (gs "base64"))]⟩⟩).1.error =
      some ⟨gs "execution_error",
        gs "Error decoding base64 content: " ++ base64DecodeErrMsg⟩ ∧
    (writeFile ⟨gs "/sandbox"⟩ (gs "/") 7 [([gs "sandbox"], .dir 0 5)]
        ⟨gs "filesystem.write", gs "r6",
          ⟨[(gs "path", .str (gs "d/f")), (gs "content", .str (gs "%%%")),
            (gs "encoding", .str (gs "base64"))]⟩⟩).2 ≠
      [([gs "sandbox"], .dir 0 5)] := by
  decide

/-- Any error outcome of `deleteFile` leaves the filesystem exactly as
it was. -/
theorem deleteFile_unchanged_or_success (p : FilesystemProvider) (cwd : GoStr)
    (fs : FS) (request : CallToolRequest) :
    (deleteFile p cwd fs request).2 = fs ∨
      (deleteFile p cwd fs request).1.status = gs "success" := by
  unfold deleteFile
  dsimp only
  repeat' split
  all_goals first | exact Or.inl rfl | exact Or.inr rfl

/-- C6 amended: a delete that reports an error envelope has changed
nothing; a write failing at base64 decoding has written and deleted
nothing, but because `os.MkdirAll` runs before the decode it may
already have created parent directories — when the parent directories
already exist (`MkdirAll` is a no-op), the filesystem is unchanged and
the decode failure is reported. -/
theorem effectful_error_no_data_change (p : FilesystemProvider) (cwd : GoStr)
    (now : Nat) (fs dfs : FS) (dreq : CallToolRequest) (tid rid ps c full : GoStr)
    (hres : resolvePath p cwd ps = .ok full)
    (hmk : osMkdirAll fs (dirB full) now = .ok fs)
    (hdec : base64Decode c = none) :
    ((deleteFile p cwd dfs dreq).1.status = gs "error" →
      (deleteFile p cwd dfs dreq).2 = dfs) ∧
    writeFile p cwd now fs
        ⟨tid, rid, ⟨[(gs "path", .str ps), (gs "content", .str c),
          (gs "encoding", .str (gs "base64"))]⟩⟩ =
      ({ NewToolResultError (gs "Error decoding base64 content: " ++ base64DecodeErrMsg) with
          requestID := rid }, fs) := by
  constructor
  · intro herr
    rcases deleteFile_unchanged_or_success p cwd dfs dreq with h | h
    · exact h
    · rw [herr] at h
      exact absurd h (by decide)
  · unfold writeFile
    simp only [show argLookup [(gs "path", GoValue.str ps), (gs "content", GoValue.str c),
        (gs "encoding", GoValue.str (gs "base64"))] (gs "path")
        = some (GoValue.str ps) from rfl,
      show argLookup [(gs "path", GoValue.str ps), (gs "content", GoValue.str c),
        (gs "encoding", GoValue.str (gs "base64"))] (gs "content")
        = some (GoValue.str c) from rfl,
      show argLookup [(gs "path", GoValue.str ps), (gs "content", GoValue.str c),
        (gs "encoding", GoValue.str (gs "base64"))] (gs "encoding")
        = some (GoValue.str (gs "base64")) from rfl,
      hres, hmk, if_pos rfl, hdec, if_true]

/-- C6 amended witness: with `/sandbox/d` already present, writing
undecodable base64 content to `d/f` reports the decode error and
leaves the filesystem unchanged; and a concrete failing delete (on a
missing path) changes nothing. -/
theorem effectful_error_no_data_change_witness :
    (resolvePath ⟨gs "/sandbox"⟩ (gs "/") (gs "d/f") = .ok (gs "/sandbox/d/f") ∧
      osMkdirAll witnessFS (dirB (gs "/sandbox/d/f")) 7 = .ok witnessFS ∧
      base64Decode (gs "%%%") = none) ∧
    ((deleteFile ⟨gs "/sandbox"⟩ (gs "/") witnessFS
        ⟨gs "t", gs "r", ⟨[(gs "path", GoValue.str (gs "missing"))]⟩⟩).1.status = gs "error" →
      (deleteFile ⟨gs "/sandbox"⟩ (gs "/") witnessFS
        ⟨gs "t", gs "r", ⟨[(gs "path", GoValue.str (gs "missing"))]⟩⟩).2 = witnessFS) ∧
    writeFile ⟨gs "/sandbox"⟩ (gs "/") 7 witnessFS
        ⟨gs "t", gs "r", ⟨[(gs "path", .str (gs "d/f")), (gs "content", .str (gs "%%%")),
          (gs "encoding", .str (gs "base64"))]⟩⟩ =
      ({ NewToolResultError (gs "Error decoding base64 content: " ++ base64DecodeErrMsg) with
          requestID := gs "r" }, witnessFS) :=
  ⟨⟨by decide, by decide, by decide⟩,
    effectful_error_no_data_change ⟨gs "/sandbox"⟩ (gs "/") 7 witnessFS witnessFS
      ⟨gs "t", gs "r", ⟨[(gs "path", GoValue.str (gs "missing"))]⟩⟩
      (gs "t") (gs "r") (gs "d/f") (gs "%%%") (gs "/sandbox/d/f")
      (by decide) (by decide) (by decide)⟩

/-- C7: on identical argument maps (and identical filesystem state),
the `read` tool and the `file` resource load have the same outcome —
status, error message, and payload (the same `FileContent`) — and the
`list` tool and the `directory` resource load likewise (the same
`DirectoryContent`); they differ only in the envelope type (and its
fixed error code) wrapping the result. -/
theorem tool_resource_equivalence (p : FilesystemProvider) (cwd : GoStr) (fs : FS)
    (args : Args) (tid rsid rid : GoStr) :
    toolOutcome (readFile p cwd fs ⟨tid, rid, ⟨args⟩⟩) =
      resourceOutcome (loadFile p cwd fs ⟨rsid, rid, args⟩) ∧
    toolOutcome (listDirectory p cwd fs ⟨tid, rid, ⟨args⟩⟩) =
      resourceOutcome (loadDirectory p cwd fs ⟨rsid, rid, args⟩) := by
  constructor
  · unfold readFile loadFile
    dsimp only
    rcases hp : argLookup args (gs "path") with _ | v
    · rfl
    · rcases v with s | b | _
      · rcases hr : resolvePath p cwd s with e | full
        · simp only [hr]
          rfl
        · simp only [hr]
          rcases hs : osStat fs full with _ | info
          · simp only [hs]
            rfl
          · simp only [hs]
            cases hd : info.isDirNode
            · simp only [hd, Bool.false_eq_true, if_false]
              rcases hrf : osReadFile fs full with e | data
              · simp only [hrf]
                rfl
              · simp only [hrf]
                rfl
            · simp only [hd, if_true]
              rfl
      · rfl
      · rfl
  · unfold listDirectory loadDirectory
    dsimp only
    rcases hp : argLookup args (gs "path") with _ | v
    · rfl
    · rcases v with s | b | _
      · rcases hr : resolvePath p cwd s with e | full
        · simp only [hr]
          rfl
        · simp only [hr]
          rcases hs : osStat fs full with _ | info
          · simp only [hs]
            rfl
          · simp only [hs]
            cases hd : info.isDirNode
            · simp only [hd, Bool.not_false, if_true]
              rfl
            · simp only [hd, Bool.not_true, Bool.false_eq_true, if_false]
              rfl
      · rfl
      · rfl

/-- Every 6-bit value decodes back from its alphabet character. -/
theorem b64Val_b64Char : ∀ n, n < 64 → b64Val (b64Char n) = some n := by decide

/-- No alphabet character is the padding character `=`. -/
theorem b64Char_ne_pad : ∀ n, n < 64 → b64Char n ≠ 61 := by decide

/-- Standard base64 decoding inverts encoding on byte sequences. -/
theorem base64_decode_encode : ∀ c : GoStr, (∀ b ∈ c, b < 256) →
    base64Decode (base64Encode c) = some c
  | [], _ => rfl
  | [a], h => by
    have ha : a < 256 := h a (by simp)
    have h1 : a / 4 < 64 := by omega
    have h2 : a % 4 * 16 < 64 := by omega
    unfold base64Encode base64Decode
    rw [b64Val_b64Char _ h1, b64Val_b64Char _ h2]
    simp only [if_pos rfl, and_self, if_true, Option.some.injEq, List.cons.injEq, and_true]
    omega
  | [a, b], h => by
    have ha : a < 256 := h a (by simp)
    have hb : b < 256 := h b (by simp)
    have h1 : a / 4 < 64 := by omega
    have h2 : a % 4 * 16 + b / 16 < 64 := by omega
    have h3 : b % 16 * 4 < 64 := by omega
    unfold base64Encode base64Decode
    simp [b64Val_b64Char _ h1, b64Val_b64Char _ h2, b64Val_b64Char _ h3,
      b64Char_ne_pad _ h3]
    constructor <;> omega
  | a :: b :: d :: rest, h => by
    have ha : a < 256 := h a (by simp)
    have hb : b < 256 := h b (by simp)
    have hd : d < 256 := h d (by simp)
    have ih : base64Decode (base64Encode rest) = some rest :=
      base64_decode_encode rest (fun x hx => h x (by simp [hx]))
    have h1 : a / 4 < 64 := by omega
    have h2 : a % 4 * 16 + b / 16 < 64 := by omega
    have h3 : b % 16 * 4 + d / 64 < 64 := by omega
    have h4 : d % 64 < 64 := by omega
    unfold base64Encode base64Decode
    simp [b64Val_b64Char _ h1, b64Val_b64Char _ h2, b64Val_b64Char _ h3,
      b64Val_b64Char _ h4, b64Char_ne_pad _ h3, b64Char_ne_pad _ h4, ih]
    refine ⟨by omega, by omega, by omega⟩

/-- Looking up a key just inserted returns the inserted node. -/
theorem fsLookup_fsInsert (fs : FS) (k : FSKey) (n : FSNode) :
    fsLookup (fsInsert fs k n) k = some n := by
  have hk : decide (k = k) = true := by simp
  induction fs with
  | nil =>
    unfold fsInsert fsLookup
    simp [List.find?]
  | cons e rest ih =>
    obtain ⟨k', n'⟩ := e
    unfold fsInsert fsLookup
    by_cases h : k' = k
    · rw [if_pos h]
      simp [List.find?]
    · rw [if_neg h]
      have h' : decide ((k', n').1 = k) = false := by simp [h]
      simp only [List.find?, h']
      exact ih

/-- A successful `os.WriteFile` stored exactly the written bytes. -/
theorem osWriteFile_ok (fs : FS) (path data : GoStr) (now : Nat) (fs' : FS)
    (h : osWriteFile fs path data now = .ok fs') :
    fs' = fsInsert fs (pathKey path) (.file data now) := by
  unfold osWriteFile at h
  by_cases h0 : pathKey path = []
  · rw [if_pos h0] at h
    exact Except.noConfusion h
  · rw [if_neg h0] at h
    have cont : ∀ hres : (match fsLookup fs (pathKey path) with
        | some (.dir _ _) => Except.error (gs "is a directory")
        | _ =>
          if (pathKey path).dropLast = [] then
            Except.ok (fsInsert fs (pathKey path) (.file data now))
          else
            match fsLookup fs ((pathKey path).dropLast) with
            | some (.dir _ _) => Except.ok (fsInsert fs (pathKey path) (.file data now))
            | some (.file _ _) => Except.error (gs "not a directory")
            | none => Except.error (gs "no such file or directory")) = .ok fs',
        fs' = fsInsert fs (pathKey path) (.file data now) := by
      intro hres
      rcases hl : fsLookup fs (pathKey path) with _ | node
      · simp only [hl] at hres
        by_cases h1 : (pathKey path).dropLast = []
        · rw [if_pos h1] at hres
          exact (Except.ok.inj hres).symm
        · rw [if_neg h1] at hres
          rcases hl2 : fsLookup fs ((pathKey path).dropLast) with _ | node2
          · simp only [hl2] at hres
            exact Except.noConfusion hres
          · rcases node2 with ⟨d2, m2⟩ | ⟨s2, m2⟩ <;> simp only [hl2] at hres
            · exact Except.noConfusion hres
            · exact (Except.ok.inj hres).symm
      · rcases node with ⟨d1, m1⟩ | ⟨s1, m1⟩ <;> simp only [hl] at hres
        · by_cases h1 : (pathKey path).dropLast = []
          · rw [if_pos h1] at hres
            exact (Except.ok.inj hres).symm
          · rw [if_neg h1] at hres
            rcases hl2 : fsLookup fs ((pathKey path).dropLast) with _ | node2
            · simp only [hl2] at hres
              exact Except.noConfusion hres
            · rcases node2 with ⟨d2, m2⟩ | ⟨s2, m2⟩ <;> simp only [hl2] at hres
              · exact Except.noConfusion hres
              · exact (Except.ok.inj hres).symm
        · exact Except.noConfusion hres
    exact cont h

/-- C4: if a text-encoded write of content `c` (a byte sequence) to
path `p` succeeds, then reading `p` back as text yields exactly `c`
with `is_text` true, reading it as base64 yields the base64 encoding
of `c` with `is_text` false, and that base64 string decodes back to
precisely the bytes `c`. -/
theorem write_read_roundtrip (p : FilesystemProvider) (cwd : GoStr) (now : Nat)
    (fs : FS) (ps c : GoStr) (tid1 tid2 tid3 rid1 rid2 rid3 : GoStr)
    (hbytes : ∀ b ∈ c, b < 256)
    (hw : (writeFile p cwd now fs ⟨tid1, rid1,
        ⟨[(gs "path", .str ps), (gs "content", .str c),
          (gs "encoding", .str (gs "text"))]⟩⟩).1.status = gs "success") :
    readFile p cwd
        (writeFile p cwd now fs ⟨tid1, rid1,
          ⟨[(gs "path", .str ps), (gs "content", .str c),
            (gs "encoding", .str (gs "text"))]⟩⟩).2
        ⟨tid2, rid2, ⟨[(gs "path", .str ps), (gs "encoding", .str (gs "text"))]⟩⟩ =
      { NewToolResultJSON (.fileContent ⟨ps, c, true⟩) with requestID := rid2 } ∧
    readFile p cwd
        (writeFile p cwd now fs ⟨tid1, rid1,
          ⟨[(gs "path", .str ps), (gs "content", .str c),
            (gs "encoding", .str (gs "text"))]⟩⟩).2
        ⟨tid3, rid3, ⟨[(gs "path", .str ps), (gs "encoding", .str (gs "base64"))]⟩⟩ =
      { NewToolResultJSON (.fileContent ⟨ps, base64Encode c, false⟩) with requestID := rid3 } ∧
    base64Decode (base64Encode c) = some c := by
  have hargs1 : argLookup [(gs "path", GoValue.str ps), (gs "content", GoValue.str c),
      (gs "encoding", GoValue.str (gs "text"))] (gs "path") = some (GoValue.str ps) := rfl
  have hargs2 : argLookup [(gs "path", GoValue.str ps), (gs "content", GoValue.str c),
      (gs "encoding", GoValue.str (gs "text"))] (gs "content") = some (GoValue.str c) := rfl
  have hargs3 : argLookup [(gs "path", GoValue.str ps), (gs "content", GoValue.str c),
      (gs "encoding", GoValue.str (gs "text"))] (gs "encoding")
      = some (GoValue.str (gs "text")) := rfl
  have htext : ¬ (gs "text" = gs "base64") := by decide
  unfold writeFile at hw ⊢
  simp only [hargs1, hargs2, hargs3, if_neg htext] at hw ⊢
  rcases hres : resolvePath p cwd ps with e | full <;> simp only [hres] at hw ⊢
  · exact absurd (show gs "error" = gs "success" from hw) (by decide)
  rcases hmk : osMkdirAll fs (dirB full) now with e | fs1 <;> simp only [hmk] at hw ⊢
  · exact absurd (show gs "error" = gs "success" from hw) (by decide)
  rcases hwr : osWriteFile fs1 full c now with e | fs2 <;> simp only [hwr] at hw ⊢
  · exact absurd (show gs "error" = gs "success" from hw) (by decide)
  have hfs2 : fs2 = fsInsert fs1 (pathKey full) (.file c now) :=
    osWriteFile_ok fs1 full c now fs2 hwr
  have hstat : osStat fs2 full = some (.file c now) := by
    rw [hfs2]; exact fsLookup_fsInsert fs1 (pathKey full) (.file c now)
  have hread : osReadFile fs2 full = .ok c := by
    unfold osReadFile
    rw [hfs2, fsLookup_fsInsert]
  refine ⟨?_, ?_, base64_decode_encode c hbytes⟩
  · unfold readFile
    simp only [show argLookup [(gs "path", GoValue.str ps),
        (gs "encoding", GoValue.str (gs "text"))] (gs "path")
        = some (GoValue.str ps) from rfl,
      show argLookup [(gs "path", GoValue.str ps),
        (gs "encoding", GoValue.str (gs "text"))] (gs "encoding")
        = some (GoValue.str (gs "text")) from rfl,
      hres, hstat, FSNode.isDirNode, Bool.false_eq_true, if_false, hread,
      if_neg htext]
  · unfold readFile
    simp only [show argLookup [(gs "path", GoValue.str ps),
        (gs "encoding", GoValue.str (gs "base64"))] (gs "path")
        = some (GoValue.str ps) from rfl,
      show argLookup [(gs "path", GoValue.str ps),
        (gs "encoding", GoValue.str (gs "base64"))] (gs "encoding")
        = some (GoValue.str (gs "base64")) from rfl,
      hres, hstat, FSNode.isDirNode, Bool.false_eq_true, if_false, hread,
      if_pos rfl, if_true]

/-- C4 witness: writing `hi` to `notes/a.txt` under `/sandbox`
succeeds, reads back as `hi` (text) and `aGk=` (base64), and `aGk=`
decodes to `hi`. -/
theorem write_read_roundtrip_witness :
    ((∀ b ∈ gs "hi", b < 256) ∧
      (writeFile ⟨gs "/sandbox"⟩ (gs "/") 7 [([gs "sandbox"], .dir 0 5)]
        ⟨gs "t1", gs "r1", ⟨[(gs "path", .str (gs "notes/a.txt")),
          (gs "content", .str (gs "hi")),
          (gs "encoding", .str (gs "text"))]⟩⟩).1.status = gs "success") ∧
    readFile ⟨gs "/sandbox"⟩ (gs "/")
        (writeFile ⟨gs "/sandbox"⟩ (gs "/") 7 [([gs "sandbox"], .dir 0 5)]
          ⟨gs "t1", gs "r1", ⟨[(gs "path", .str (gs "notes/a.txt")),
            (gs "content", .str (gs "hi")),
            (gs "encoding", .str (gs "text"))]⟩⟩).2
        ⟨gs "t2", gs "r2", ⟨[(gs "path", .str (gs "notes/a.txt")),
          (gs "encoding", .str (gs "text"))]⟩⟩ =
      { NewToolResultJSON (.fileContent ⟨gs "notes/a.txt", gs "hi", true⟩) with
          requestID := gs "r2" } ∧
    base64Decode (base64Encode (gs "hi")) = some (gs "hi") :=
  ⟨⟨by decide, by decide⟩,
    (write_read_roundtrip ⟨gs "/sandbox"⟩ (gs "/") 7 [([gs "sandbox"], .dir 0 5)]
      (gs "notes/a.txt") (gs "hi") (gs "t1") (gs "t2") (gs "t3")
      (gs "r1") (gs "r2") (gs "r3") (by decide) (by decide)).1,
    (write_read_roundtrip ⟨gs "/sandbox"⟩ (gs "/") 7 [([gs "sandbox"], .dir 0 5)]
      (gs "notes/a.txt") (gs "hi") (gs "t1") (gs "t2") (gs "t3")
      (gs "r1") (gs "r2") (gs "r3") (by decide) (by decide)).2.2⟩

/-! ## Lemmas about the path model, towards the empty-candidate claim -/

/-- `splitOnByte` never returns the empty list. -/
theorem splitOnByte_ne_nil (b : Nat) (s : GoStr) : splitOnByte b s ≠ [] := by
  cases s with
  | nil => simp [splitOnByte]
  | cons c t =>
    unfold splitOnByte
    split
    · simp
    · split <;> simp

/-- Splitting distributes over an appended separator. -/
theorem splitOnByte_append (b : Nat) (a c : GoStr) :
    splitOnByte b (a ++ b :: c) = splitOnByte b a ++ splitOnByte b c := by
  induction a with
  | nil => simp [splitOnByte]
  | cons x t ih =>
    by_cases h : x = b
    · simp only [List.cons_append, splitOnByte, if_pos h]
      exact congrArg _ ih
    · simp only [List.cons_append, splitOnByte, if_neg h]
      rcases hs : splitOnByte b t with _ | ⟨s, ss⟩
      · exact absurd hs (splitOnByte_ne_nil b t)
      · simp only [List.append_eq]
        rw [ih, hs]
        rfl

/-- Split pieces never contain the separator. -/
theorem mem_splitOnByte (b : Nat) (s : GoStr) : ∀ t ∈ splitOnByte b s, b ∉ t := by
  induction s with
  | nil =>
    intro t ht
    simp [splitOnByte] at ht
    simp [ht]
  | cons c r ih =>
    intro t ht
    unfold splitOnByte at ht
    by_cases h : c = b
    · rw [if_pos h] at ht
      rcases List.mem_cons.mp ht with h1 | h1
      · simp [h1]
      · exact ih t h1
    · rw [if_neg h] at ht
      rcases hs : splitOnByte b r with _ | ⟨s0, ss⟩
      · exact absurd hs (splitOnByte_ne_nil b r)
      · rw [hs] at ht
        rcases List.mem_cons.mp ht with h1 | h1
        · subst h1
          intro hmem
          rcases List.mem_cons.mp hmem with h2 | h2
          · exact h h2.symm
          · exact (ih s0 (hs ▸ List.mem_cons_self _ _)) h2
        · exact ih t (hs ▸ List.mem_cons_of_mem _ h1)

/-- A separator-free string splits into itself alone. -/
theorem splitOnByte_single (b : Nat) (s : GoStr) (h : b ∉ s) : splitOnByte b s = [s] := by
  induction s with
  | nil => rfl
  | cons c t ih =>
    have hc : ¬ (c = b) := fun hh => h (by simp [hh])
    have ht : b ∉ t := fun hh => h (List.mem_cons_of_mem _ hh)
    unfold splitOnByte
    rw [if_neg hc, ih ht]

/-- Splitting inverts joining for separator-free segments. -/
theorem splitOnByte_joinSegs (b : Nat) : ∀ L : List GoStr, L ≠ [] →
    (∀ t ∈ L, b ∉ t) → splitOnByte b (joinSegs b L) = L
  | [], h, _ => absurd rfl h
  | [s], _, hL => by
    unfold joinSegs
    exact splitOnByte_single b s (hL s (by simp))
  | s :: s2 :: rest, _, hL => by
    have ih := splitOnByte_joinSegs b (s2 :: rest) (by simp)
      (fun t ht => hL t (List.mem_cons_of_mem _ ht))
    show splitOnByte b (s ++ b :: joinSegs b (s2 :: rest)) = s :: s2 :: rest
    rw [splitOnByte_append, splitOnByte_single b s (hL s (by simp)), ih]
    rfl

/-- Joining non-empty segments is non-empty. -/
theorem joinSegs_ne_nil (b : Nat) : ∀ L : List GoStr, L ≠ [] →
    (∀ t ∈ L, t ≠ []) → joinSegs b L ≠ []
  | [], h, _ => absurd rfl h
  | [s], _, hL => by
    unfold joinSegs
    exact hL s (by simp)
  | s :: s2 :: rest, _, hL => by
    show s ++ b :: joinSegs b (s2 :: rest) ≠ []
    rcases s with _ | ⟨c, t⟩
    · simp
    · simp

/-- Appending to a non-empty string keeps its first byte. -/
theorem isAbsB_append (r x : GoStr) (h : r ≠ []) : isAbsB (r ++ x) = isAbsB r := by
  cases r with
  | nil => exact absurd rfl h
  | cons c t => rfl

/-- A join of non-empty separator-free segments never starts with the
separator. -/
theorem isAbsB_joinSegs_false : ∀ L : List GoStr,
    (∀ t ∈ L, t ≠ [] ∧ slash ∉ t) → isAbsB (joinSegs slash L) = false
  | [], _ => rfl
  | [s], hL => by
    rcases hL s (by simp) with ⟨hne, hns⟩
    show isAbsB s = false
    rcases s with _ | ⟨c, t⟩
    · exact absurd rfl hne
    · have hc : ¬ (c = slash) := fun hh => hns (by simp [hh])
      simp [isAbsB, hc]
  | s :: s2 :: rest, hL => by
    rcases hL s (by simp) with ⟨hne, hns⟩
    show isAbsB (s ++ slash :: joinSegs slash (s2 :: rest)) = false
    rcases s with _ | ⟨c, t⟩
    · exact absurd rfl hne
    · have hc : ¬ (c = slash) := fun hh => hns (by simp [hh])
      simp [isAbsB, hc]

/-- Every string is a prefix of itself. -/
theorem hasPrefixB_self (s : GoStr) : hasPrefixB s s = true := by
  unfold hasPrefixB
  induction s with
  | nil => rfl
  | cons c t ih => simp [List.isPrefixOf, ih]

/-- `filepath.Clean` never returns the empty string. -/
theorem cleanB_ne_nil (s : GoStr) : cleanB s ≠ [] := by
  unfold cleanB
  split
  · simp
  · dsimp only
    split
    · simp
    · split
      · simp
      · assumption

/-- `cleanStep` drops empty and `.` segments. -/
theorem cleanStep_skip (rooted : Bool) (S : List GoStr) (seg : GoStr)
    (h : seg = [] ∨ seg = [dot]) : cleanStep rooted S seg = S := by
  unfold cleanStep
  rw [if_pos h]

/-- A rooted `..` at the bottom of the stack is dropped. -/
theorem cleanStep_dots_nil_true (seg : GoStr) (h1 : ¬(seg = [] ∨ seg = [dot]))
    (h2 : seg = [dot, dot]) : cleanStep true [] seg = [] := by
  unfold cleanStep
  rw [if_neg h1, if_pos h2]
  rfl

/-- A relative `..` at the bottom of the stack is kept. -/
theorem cleanStep_dots_nil_false (seg : GoStr) (h1 : ¬(seg = [] ∨ seg = [dot]))
    (h2 : seg = [dot, dot]) : cleanStep false [] seg = [[dot, dot]] := by
  unfold cleanStep
  rw [if_neg h1, if_pos h2]
  rfl

/-- A `..` pops a non-`..` stack top. -/
theorem cleanStep_dots_pop (rooted : Bool) (t : GoStr) (S : List GoStr) (seg : GoStr)
    (h1 : ¬(seg = [] ∨ seg = [dot])) (h2 : seg = [dot, dot]) (ht : ¬ t = [dot, dot]) :
    cleanStep rooted (t :: S) seg = S := by
  unfold cleanStep
  rw [if_neg h1, if_pos h2]
  dsimp only
  rw [if_neg ht]

/-- A `..` over a kept `..` is kept as well. -/
theorem cleanStep_dots_keep (rooted : Bool) (S : List GoStr) (seg : GoStr)
    (h1 : ¬(seg = [] ∨ seg = [dot])) (h2 : seg = [dot, dot]) :
    cleanStep rooted ([dot, dot] :: S) seg = seg :: [dot, dot] :: S := by
  unfold cleanStep
  rw [if_neg h1, if_pos h2]
  dsimp only
  rw [if_pos rfl]

/-- A plain name segment is pushed. -/
theorem cleanStep_push (rooted : Bool) (S : List GoStr) (seg : GoStr)
    (h1 : ¬(seg = [] ∨ seg = [dot])) (h2 : ¬ seg = [dot, dot]) :
    cleanStep rooted S seg = seg :: S := by
  unfold cleanStep
  rw [if_neg h1, if_neg h2]

/-- The action drops empty and `.` segments. -/
theorem actStep_skip (kp : Nat × List GoStr) (seg : GoStr)
    (h : seg = [] ∨ seg = [dot]) : actStep kp seg = kp := by
  unfold actStep
  rw [if_pos h]

/-- A `..` with nothing pushed adds a pop. -/
theorem actStep_dots_nil (k : Nat) (seg : GoStr) (h1 : ¬(seg = [] ∨ seg = [dot]))
    (h2 : seg = [dot, dot]) : actStep (k, []) seg = (k + 1, []) := by
  unfold actStep
  rw [if_neg h1, if_pos h2]

/-- A `..` over a pushed segment removes it. -/
theorem actStep_dots_cons (k : Nat) (p0 : GoStr) (pt : List GoStr) (seg : GoStr)
    (h1 : ¬(seg = [] ∨ seg = [dot])) (h2 : seg = [dot, dot]) :
    actStep (k, p0 :: pt) seg = (k, pt) := by
  unfold actStep
  rw [if_neg h1, if_pos h2]

/-- A plain name segment is pushed by the action. -/
theorem actStep_push (kp : Nat × List GoStr) (seg : GoStr)
    (h1 : ¬(seg = [] ∨ seg = [dot])) (h2 : ¬ seg = [dot, dot]) :
    actStep kp seg = (kp.1, seg :: kp.2) := by
  unfold actStep
  rw [if_neg h1, if_neg h2]

/-- The pushed-segment stack of the action contains only well-formed
segments when the input segments are separator-free. -/
theorem foldl_actStep_good : ∀ (segs : List GoStr), (∀ s ∈ segs, slash ∉ s) →
    ∀ kp : Nat × List GoStr, (∀ e ∈ kp.2, goodSeg e) →
    ∀ e ∈ (segs.foldl actStep kp).2, goodSeg e
  | [], _, kp, hkp => hkp
  | seg :: rest, hsegs, kp, hkp => by
    rw [List.foldl_cons]
    refine foldl_actStep_good rest (fun s hs => hsegs s (List.mem_cons_of_mem _ hs)) _ ?_
    by_cases h1 : seg = [] ∨ seg = [dot]
    · rw [actStep_skip kp seg h1]
      exact hkp
    · by_cases h2 : seg = [dot, dot]
      · rcases hkp2 : kp.2 with _ | ⟨p0, pt⟩
        · rw [show kp = (kp.1, []) from by rw [← hkp2], actStep_dots_nil kp.1 seg h1 h2]
          intro e he
          simp at he
        · rw [show kp = (kp.1, p0 :: pt) from by rw [← hkp2],
            actStep_dots_cons kp.1 p0 pt seg h1 h2]
          intro e he
          exact hkp e (hkp2 ▸ List.mem_cons_of_mem _ he)
      · rw [actStep_push kp seg h1 h2]
        intro e he
        rcases List.mem_cons.mp he with h3 | h3
        · subst h3
          push_neg at h1
          exact ⟨⟨h1.1, h1.2, h2⟩, hsegs e (by simp)⟩
        · exact hkp e h3

/-- Rooted clean steps from a dot-free stack are simulated by the
action applied to a deeper stack `S`. -/
theorem foldl_cleanStep_true_sim : ∀ (segs : List GoStr) (k : Nat) (ps S : List GoStr),
    (∀ e ∈ S, e ≠ [dot, dot]) → (∀ e ∈ ps, e ≠ [dot, dot]) →
    segs.foldl (cleanStep true) (ps ++ S.drop k) =
      (segs.foldl actStep (k, ps)).2 ++ S.drop (segs.foldl actStep (k, ps)).1
  | [], k, ps, S, _, _ => rfl
  | seg :: rest, k, ps, S, hS, hps => by
    rw [List.foldl_cons, List.foldl_cons]
    by_cases h1 : seg = [] ∨ seg = [dot]
    · rw [cleanStep_skip true _ seg h1, actStep_skip (k, ps) seg h1]
      exact foldl_cleanStep_true_sim rest k ps S hS hps
    · by_cases h2 : seg = [dot, dot]
      · rcases ps with _ | ⟨p0, pt⟩
        · rcases hd : S.drop k with _ | ⟨s0, st⟩
          · have hdrop : S.drop (k + 1) = [] := by
              rw [List.drop_eq_nil_iff] at hd ⊢
              omega
            have e1 : cleanStep true ([] ++ ([] : List GoStr)) seg = [] ++ S.drop (k + 1) := by
              rw [List.nil_append, List.nil_append, hdrop]
              exact cleanStep_dots_nil_true seg h1 h2
            rw [e1, actStep_dots_nil k seg h1 h2]
            exact foldl_cleanStep_true_sim rest (k + 1) [] S hS (by simp)
          · have hs0 : ¬ s0 = [dot, dot] :=
              hS s0 (List.drop_subset k S (hd ▸ List.mem_cons_self _ _))
            have hdrop : S.drop (k + 1) = st := by
              rw [← List.tail_drop, hd]
              rfl
            have e1 : cleanStep true ([] ++ s0 :: st) seg = [] ++ S.drop (k + 1) := by
              rw [List.nil_append, List.nil_append, hdrop]
              exact cleanStep_dots_pop true s0 st seg h1 h2 hs0
            rw [e1, actStep_dots_nil k seg h1 h2]
            exact foldl_cleanStep_true_sim rest (k + 1) [] S hS (by simp)
        · have hp0 : ¬ p0 = [dot, dot] := hps p0 (by simp)
          have e1 : cleanStep true ((p0 :: pt) ++ S.drop k) seg = pt ++ S.drop k := by
            rw [List.cons_append]
            exact cleanStep_dots_pop true p0 (pt ++ S.drop k) seg h1 h2 hp0
          rw [e1, actStep_dots_cons k p0 pt seg h1 h2]
          exact foldl_cleanStep_true_sim rest k pt S hS
            (fun e he => hps e (List.mem_cons_of_mem _ he))
      · rw [cleanStep_push true _ seg h1 h2, actStep_push (k, ps) seg h1 h2]
        rw [show seg :: (ps ++ S.drop k) = (seg :: ps) ++ S.drop k from rfl]
        refine foldl_cleanStep_true_sim rest k (seg :: ps) S hS ?_
        intro e he
        rcases List.mem_cons.mp he with h3 | h3
        · subst h3
          exact h2
        · exact hps e h3

/-- Relative clean steps from a stack of kept `..` segments are
simulated by the action. -/
theorem foldl_cleanStep_false_sim : ∀ (segs : List GoStr) (k : Nat) (ps : List GoStr),
    (∀ e ∈ ps, e ≠ [dot, dot]) →
    segs.foldl (cleanStep false) (ps ++ dotsRep k) =
      (segs.foldl actStep (k, ps)).2 ++ dotsRep (segs.foldl actStep (k, ps)).1
  | [], k, ps, _ => rfl
  | seg :: rest, k, ps, hps => by
    rw [List.foldl_cons, List.foldl_cons]
    by_cases h1 : seg = [] ∨ seg = [dot]
    · rw [cleanStep_skip false _ seg h1, actStep_skip (k, ps) seg h1]
      exact foldl_cleanStep_false_sim rest k ps hps
    · by_cases h2 : seg = [dot, dot]
      · rcases ps with _ | ⟨p0, pt⟩
        · rcases k with _ | j
          · have e1 : cleanStep false ([] ++ dotsRep 0) seg = [] ++ dotsRep 1 := by
              show cleanStep false [] seg = [[dot, dot]]
              exact cleanStep_dots_nil_false seg h1 h2
            rw [e1, actStep_dots_nil 0 seg h1 h2]
            exact foldl_cleanStep_false_sim rest 1 [] (by simp)
          · have e1 : cleanStep false ([] ++ dotsRep (j + 1)) seg = [] ++ dotsRep (j + 2) := by
              show cleanStep false ([dot, dot] :: dotsRep j) seg =
                [dot, dot] :: [dot, dot] :: dotsRep j
              rw [cleanStep_dots_keep false (dotsRep j) seg h1 h2, h2]
            rw [e1, actStep_dots_nil (j + 1) seg h1 h2]
            exact foldl_cleanStep_false_sim rest (j + 2) [] (by simp)
        · have hp0 : ¬ p0 = [dot, dot] := hps p0 (by simp)
          have e1 : cleanStep false ((p0 :: pt) ++ dotsRep k) seg = pt ++ dotsRep k := by
            rw [List.cons_append]
            exact cleanStep_dots_pop false p0 (pt ++ dotsRep k) seg h1 h2 hp0
          rw [e1, actStep_dots_cons k p0 pt seg h1 h2]
          exact foldl_cleanStep_false_sim rest k pt
            (fun e he => hps e (List.mem_cons_of_mem _ he))
      · rw [cleanStep_push false _ seg h1 h2, actStep_push (k, ps) seg h1 h2]
        rw [show seg :: (ps ++ dotsRep k) = (seg :: ps) ++ dotsRep k from rfl]
        refine foldl_cleanStep_false_sim rest k (seg :: ps) ?_
        intro e he
        rcases List.mem_cons.mp he with h3 | h3
        · subst h3
          exact h2
        · exact hps e h3

/-- The action of a run of `..` segments on an empty stack counts
them. -/
theorem foldl_actStep_dotsRep : ∀ (k j : Nat), (dotsRep k).foldl actStep (j, []) = (j + k, [])
  | 0, j => by simp [dotsRep]
  | k + 1, j => by
    rw [show dotsRep (k + 1) = [dot, dot] :: dotsRep k from rfl, List.foldl_cons]
    rw [actStep_dots_nil j [dot, dot] (by decide) rfl]
    rw [foldl_actStep_dotsRep k (j + 1)]
    congr 1
    omega

/-- The action of plain name segments pushes them all. -/
theorem foldl_actStep_names : ∀ (L : List GoStr), (∀ s ∈ L, isNameSeg s) →
    ∀ kp : Nat × List GoStr, L.foldl actStep kp = (kp.1, L.reverse ++ kp.2)
  | [], _, kp => by simp
  | s :: rest, hL, kp => by
    obtain ⟨hs1, hs2, hs3⟩ := hL s (by simp)
    rw [List.foldl_cons, actStep_push kp s (by simp [hs1, hs2]) hs3]
    rw [foldl_actStep_names rest (fun t ht => hL t (List.mem_cons_of_mem _ ht)) (kp.1, s :: kp.2)]
    simp

/-- Rooted clean steps push plain name segments unconditionally. -/
theorem foldl_cleanStep_true_names : ∀ (L : List GoStr), (∀ s ∈ L, isNameSeg s) →
    ∀ S : List GoStr, L.foldl (cleanStep true) S = L.reverse ++ S
  | [], _, S => by simp
  | s :: rest, hL, S => by
    obtain ⟨hs1, hs2, hs3⟩ := hL s (by simp)
    rw [List.foldl_cons, cleanStep_push true S s (by simp [hs1, hs2]) hs3]
    rw [foldl_cleanStep_true_names rest (fun t ht => hL t (List.mem_cons_of_mem _ ht)) (s :: S)]
    simp

/-- The rooted clean stack holds only well-formed segments when fed
separator-free segments. -/
theorem foldl_cleanStep_true_good : ∀ (segs : List GoStr), (∀ s ∈ segs, slash ∉ s) →
    ∀ S : List GoStr, (∀ e ∈ S, goodSeg e) →
    ∀ e ∈ segs.foldl (cleanStep true) S, goodSeg e
  | [], _, _, hS => hS
  | seg :: rest, hsegs, S, hS => by
    rw [List.foldl_cons]
    refine foldl_cleanStep_true_good rest (fun s hs => hsegs s (List.mem_cons_of_mem _ hs)) _ ?_
    by_cases h1 : seg = [] ∨ seg = [dot]
    · rw [cleanStep_skip true S seg h1]
      exact hS
    · by_cases h2 : seg = [dot, dot]
      · rcases S with _ | ⟨s0, st⟩
        · rw [cleanStep_dots_nil_true seg h1 h2]
          intro e he
          simp at he
        · have hs0 : ¬ s0 = [dot, dot] := (hS s0 (by simp)).1.2.2
          rw [cleanStep_dots_pop true s0 st seg h1 h2 hs0]
          intro e he
          exact hS e (List.mem_cons_of_mem _ he)
      · rw [cleanStep_push true S seg h1 h2]
        intro e he
        rcases List.mem_cons.mp he with h3 | h3
        · subst h3
          push_neg at h1
          exact ⟨⟨h1.1, h1.2, h2⟩, hsegs e (by simp)⟩
        · exact hS e h3

/-- An absolute path is non-empty. -/
theorem ne_nil_of_isAbsB (x : GoStr) (hx : isAbsB x = true) : x ≠ [] := by
  intro h
  rw [h] at hx
  exact absurd hx (by decide)

/-- The shape of a rooted clean: a slash followed by the joined
cleaned segments. -/
theorem cleanB_rooted_eq (r : GoStr) (h0 : r ≠ []) (hroot : isAbsB r = true) :
    cleanB r = slash :: joinSegs slash (cleanSegsOf true (splitOnByte slash r)) := by
  unfold cleanB
  rw [if_neg h0, hroot]
  rfl

/-- The shape of a relative clean: the joined cleaned segments, or `.`
when nothing remains. -/
theorem cleanB_unrooted_eq (r : GoStr) (h0 : r ≠ []) (hroot : isAbsB r = false) :
    cleanB r = (if joinSegs slash (cleanSegsOf false (splitOnByte slash r)) = []
      then [dot] else joinSegs slash (cleanSegsOf false (splitOnByte slash r))) := by
  unfold cleanB
  rw [if_neg h0, hroot]
  rfl

/-- The relative cleaned segments are a run of kept `..` followed by
the reversed pushed names of the action. -/
theorem cleanSegsOf_false_char (segs : List GoStr) (hsegs : ∀ s ∈ segs, slash ∉ s) :
    ∃ k ps, segs.foldl actStep (0, []) = (k, ps) ∧ (∀ e ∈ ps, goodSeg e) ∧
      cleanSegsOf false segs = dotsRep k ++ ps.reverse := by
  refine ⟨(segs.foldl actStep (0, [])).1, (segs.foldl actStep (0, [])).2, rfl, ?_, ?_⟩
  · exact foldl_actStep_good segs hsegs (0, []) (by simp)
  · unfold cleanSegsOf
    have h := foldl_cleanStep_false_sim segs 0 [] (by simp)
    rw [show ([] : List GoStr) ++ dotsRep 0 = [] from rfl] at h
    rw [h, List.reverse_append]
    congr 1
    simp [dotsRep, List.reverse_replicate]

/-- Cleaning preserves whether a path is absolute. -/
theorem isAbsB_cleanB (r : GoStr) : isAbsB (cleanB r) = isAbsB r := by
  by_cases h0 : r = []
  · subst h0
    rfl
  · cases hroot : isAbsB r
    · rw [cleanB_unrooted_eq r h0 hroot]
      split
      · rfl
      · obtain ⟨k, ps, hkp, hgood, hchar⟩ :=
          cleanSegsOf_false_char (splitOnByte slash r) (mem_splitOnByte slash r)
        rw [hchar]
        refine isAbsB_joinSegs_false _ ?_
        intro t ht
        rcases List.mem_append.mp ht with h | h
        · have ht2 : t = [dot, dot] := List.eq_of_mem_replicate h
          subst ht2
          exact ⟨by decide, by decide⟩
        · have := hgood t (List.mem_reverse.mp h)
          exact ⟨this.1.1, this.2⟩
    · rw [cleanB_rooted_eq r h0 hroot]
      rfl

/-- Appending `/.` does not change a clean. -/
theorem cleanB_append_dotseg (r : GoStr) (h0 : r ≠ []) :
    cleanB (r ++ [slash, dot]) = cleanB r := by
  have hne : r ++ [slash, dot] ≠ [] := by simp
  have hsplit : splitOnByte slash (r ++ [slash, dot]) = splitOnByte slash r ++ [[dot]] := by
    rw [show r ++ [slash, dot] = r ++ slash :: [dot] from rfl, splitOnByte_append]
    rw [splitOnByte_single slash [dot] (by decide)]
  have habs : isAbsB (r ++ [slash, dot]) = isAbsB r := isAbsB_append r _ h0
  have hsegs : cleanSegsOf (isAbsB r) (splitOnByte slash r ++ [[dot]]) =
      cleanSegsOf (isAbsB r) (splitOnByte slash r) := by
    unfold cleanSegsOf
    rw [List.foldl_append]
    rw [show ∀ S : List GoStr, List.foldl (cleanStep (isAbsB r)) S [[dot]] = S from
      fun S => by
        rw [List.foldl_cons, cleanStep_skip _ S [dot] (Or.inr rfl)]
        rfl]
  unfold cleanB
  rw [if_neg h0, if_neg hne]
  dsimp only
  rw [hsplit, habs, hsegs]

/-- Cleaning an already clean rooted path changes nothing. -/
theorem cleanB_idem_rooted (r : GoStr) (hroot : isAbsB r = true) :
    cleanB (cleanB r) = cleanB r := by
  have h0 : r ≠ [] := ne_nil_of_isAbsB r hroot
  have hF : ∀ e ∈ cleanSegsOf true (splitOnByte slash r), goodSeg e := fun e he =>
    foldl_cleanStep_true_good (splitOnByte slash r) (mem_splitOnByte slash r) []
      (by simp) e (List.mem_reverse.mp he)
  rw [cleanB_rooted_eq r h0 hroot]
  rcases hFnil : cleanSegsOf true (splitOnByte slash r) with _ | ⟨f0, ft⟩
  · decide
  · rw [hFnil] at hF
    have hFne : f0 :: ft ≠ ([] : List GoStr) := by simp
    have hslashfree : ∀ t ∈ f0 :: ft, slash ∉ t := fun t ht => (hF t ht).2
    have hnames : ∀ t ∈ f0 :: ft, isNameSeg t := fun t ht => (hF t ht).1
    have hJ : splitOnByte slash (joinSegs slash (f0 :: ft)) = f0 :: ft :=
      splitOnByte_joinSegs slash (f0 :: ft) hFne hslashfree
    have habs2 : isAbsB (slash :: joinSegs slash (f0 :: ft)) = true := rfl
    rw [cleanB_rooted_eq _ (by simp) habs2]
    congr 1
    rw [show splitOnByte slash (slash :: joinSegs slash (f0 :: ft)) =
        [] :: splitOnByte slash (joinSegs slash (f0 :: ft)) from rfl]
    rw [hJ]
    unfold cleanSegsOf
    rw [List.foldl_cons, cleanStep_skip true [] [] (Or.inl rfl)]
    rw [foldl_cleanStep_true_names (f0 :: ft) hnames []]
    simp

/-- The action does not distinguish a relative path from its clean. -/
theorem act_split_cleanB (r : GoStr) (h0 : r ≠ []) (hroot : isAbsB r = false) :
    (splitOnByte slash (cleanB r)).foldl actStep (0, []) =
      (splitOnByte slash r).foldl actStep (0, []) := by
  obtain ⟨k, ps, hkp, hgood, hchar⟩ :=
    cleanSegsOf_false_char (splitOnByte slash r) (mem_splitOnByte slash r)
  rw [hkp, cleanB_unrooted_eq r h0 hroot, hchar]
  by_cases hnil : dotsRep k ++ ps.reverse = ([] : List (List Nat))
  · obtain ⟨h1, h2⟩ := List.append_eq_nil.mp hnil
    have hk : k = 0 := by simpa [dotsRep] using h1
    have hps : ps = [] := by simpa using h2
    rw [hnil]
    rw [show (if joinSegs slash ([] : List GoStr) = [] then [dot] else
      joinSegs slash ([] : List GoStr)) = [dot] from rfl]
    rw [hk, hps]
    decide
  · have hLne2 : ∀ t ∈ dotsRep k ++ ps.reverse, t ≠ [] ∧ slash ∉ t := by
      intro t ht
      rcases List.mem_append.mp ht with h | h
      · have ht2 : t = [dot, dot] := List.eq_of_mem_replicate h
        subst ht2
        exact ⟨by decide, by decide⟩
      · have := hgood t (List.mem_reverse.mp h)
        exact ⟨this.1.1, this.2⟩
    have hjne : joinSegs slash (dotsRep k ++ ps.reverse) ≠ [] :=
      joinSegs_ne_nil slash _ hnil (fun t ht => (hLne2 t ht).1)
    rw [if_neg hjne]
    rw [splitOnByte_joinSegs slash _ hnil (fun t ht => (hLne2 t ht).2)]
    rw [List.foldl_append, foldl_actStep_dotsRep k 0]
    rw [foldl_actStep_names ps.reverse
      (fun t ht => (hgood t (List.mem_reverse.mp ht)).1) (0 + k, [])]
    simp

/-- `filepath.Abs` of an absolute path just cleans it. -/
theorem absPathB_abs (cwd x : GoStr) (hx : isAbsB x = true) : absPathB cwd x = cleanB x := by
  unfold absPathB
  rw [hx]
  rfl

/-- `filepath.Abs` of a non-empty relative path joins it onto `cwd`. -/
theorem absPathB_rel (cwd x : GoStr) (hcwd0 : cwd ≠ []) (hx : isAbsB x = false)
    (hxne : x ≠ []) : absPathB cwd x = cleanB (cwd ++ slash :: x) := by
  unfold absPathB joinPathB
  rw [hx]
  rw [if_neg (by decide : ¬ (false = true))]
  rw [if_neg (fun h : cwd = [] ∧ x = [] => hcwd0 h.1), if_neg hcwd0, if_neg hxne]

/-- `filepath.Abs` of the empty path cleans `cwd`. -/
theorem absPathB_nil (cwd : GoStr) (hcwd0 : cwd ≠ []) : absPathB cwd [] = cleanB cwd := by
  unfold absPathB joinPathB
  rw [show isAbsB ([] : GoStr) = false from rfl]
  rw [if_neg (by decide : ¬ (false = true))]
  rw [if_neg (fun h : cwd = [] ∧ ([] : GoStr) = [] => hcwd0 h.1), if_neg hcwd0, if_pos rfl]

/-- Cleaning the relative clean appended to an absolute `cwd` equals
cleaning the original relative path appended to `cwd`. -/
theorem cleanB_append_cleanB (cwd r : GoStr) (hcwd : isAbsB cwd = true)
    (h0 : r ≠ []) (hrel : isAbsB r = false) :
    cleanB (cwd ++ slash :: cleanB r) = cleanB (cwd ++ slash :: r) := by
  have hcwd0 : cwd ≠ [] := ne_nil_of_isAbsB cwd hcwd
  have hact := act_split_cleanB r h0 hrel
  have hq0 : cleanB r ≠ [] := cleanB_ne_nil r
  have hne1 : cwd ++ slash :: cleanB r ≠ [] := by simp
  have hne2 : cwd ++ slash :: r ≠ [] := by simp
  have habs1 : isAbsB (cwd ++ slash :: cleanB r) = true := by
    rw [isAbsB_append _ _ hcwd0]
    exact hcwd
  have habs2 : isAbsB (cwd ++ slash :: r) = true := by
    rw [isAbsB_append _ _ hcwd0]
    exact hcwd
  rw [cleanB_rooted_eq _ hne1 habs1, cleanB_rooted_eq _ hne2 habs2]
  congr 1
  rw [splitOnByte_append, splitOnByte_append]
  unfold cleanSegsOf
  rw [List.foldl_append, List.foldl_append]
  congr 1
  have hS0 : ∀ e ∈ (splitOnByte slash cwd).foldl (cleanStep true) [], e ≠ [dot, dot] :=
    fun e he => (foldl_cleanStep_true_good (splitOnByte slash cwd)
      (mem_splitOnByte slash cwd) [] (by simp) e he).1.2.2
  have hsim1 := foldl_cleanStep_true_sim (splitOnByte slash (cleanB r)) 0 []
    ((splitOnByte slash cwd).foldl (cleanStep true) []) hS0 (by simp)
  have hsim2 := foldl_cleanStep_true_sim (splitOnByte slash r) 0 []
    ((splitOnByte slash cwd).foldl (cleanStep true) []) hS0 (by simp)
  rw [List.nil_append, List.drop_zero] at hsim1 hsim2
  rw [hsim1, hsim2, hact]

/-- C9: for any sandbox root (absolute, relative, or empty), resolving
the empty-string candidate succeeds and returns the absolute form
(`filepath.Abs`) of the root itself. `cwd` is the working directory
used by `filepath.Abs` (`os.Getwd` always yields an absolute path). -/
theorem resolvePath_empty_returns_root (p : FilesystemProvider) (cwd : GoStr)
    (hcwd : isAbsB cwd = true) :
    resolvePath p cwd [] = .ok (absPathB cwd p.rootDir) := by
  obtain ⟨r⟩ := p
  have hcwd0 : cwd ≠ [] := ne_nil_of_isAbsB cwd hcwd
  unfold resolvePath
  rw [show isAbsB ([] : GoStr) = false from rfl, if_neg (by decide : ¬ (false = true))]
  dsimp only
  rw [show cleanB [] = [dot] from rfl]
  rw [show (hasPrefixB [dot] (gs "..") || containsB [dot] (gs "/../")) = false from by decide]
  rw [if_neg (by decide : ¬ (false = true))]
  by_cases h0 : r = []
  · subst h0
    rw [show joinPathB [] [dot] = [dot] from rfl]
    rw [show isAbsB ([] : GoStr) = false from rfl, if_neg (by decide : ¬ (false = true))]
    rw [absPathB_nil cwd hcwd0]
    rw [absPathB_rel cwd [dot] hcwd0 rfl (by decide)]
    rw [show cwd ++ slash :: [dot] = cwd ++ [slash, dot] from rfl]
    rw [cleanB_append_dotseg cwd hcwd0]
  · have hjoin : joinPathB r [dot] = cleanB r := by
      unfold joinPathB
      rw [if_neg (fun h : r = [] ∧ [dot] = ([] : GoStr) => h0 h.1), if_neg h0,
        if_neg (by decide : ¬ ([dot] : GoStr) = [])]
      rw [show r ++ slash :: [dot] = r ++ [slash, dot] from rfl]
      exact cleanB_append_dotseg r h0
    rw [hjoin]
    cases hroot : isAbsB r
    · rw [if_neg (by decide : ¬ (false = true))]
      have h1 : isAbsB (cleanB r) = false := by
        rw [isAbsB_cleanB]
        exact hroot
      rw [absPathB_rel cwd (cleanB r) hcwd0 h1 (cleanB_ne_nil r)]
      rw [absPathB_rel cwd r hcwd0 hroot h0]
      rw [cleanB_append_cleanB cwd r hcwd h0 hroot]
    · rw [if_pos rfl]
      have h1 : isAbsB (cleanB r) = true := by
        rw [isAbsB_cleanB]
        exact hroot
      rw [absPathB_abs cwd (cleanB r) h1, absPathB_abs cwd r hroot]
      rw [cleanB_idem_rooted r hroot]
      rw [hasPrefixB_self (cleanB r)]
      rw [show (!true) = false from rfl, if_neg (by decide : ¬ (false = true))]

/-- C9 witness: under the default relative root `.` with working
directory `/home/user`, the empty candidate resolves to
`Abs(".") = /home/user`. -/
theorem resolvePath_empty_returns_root_witness :
    isAbsB (gs "/home/user") = true ∧
      resolvePath ⟨gs "."⟩ (gs "/home/user") (gs "") =
        .ok (absPathB (gs "/home/user") (gs ".")) :=
  ⟨by decide, resolvePath_empty_returns_root ⟨gs "."⟩ (gs "/home/user") (by decide)⟩

end MCP
